import Mathlib

/-!
# Verification of the neo4j-model-comparison similarity and matching engine

A shallow embedding of the core matching engine of the repository
(`src/compare_models/core/similarity/*` and `src/compare_models/core/comparator.py`)
together with proofs about it.

Modelling conventions:
* Python floats are modelled as exact rationals (`ℚ`); the spec describes the
  arithmetic, not IEEE rounding.
* The external string-metric libraries (`Levenshtein.ratio`,
  `Levenshtein.jaro_winkler`, `fuzzywuzzy.fuzz.token_set_ratio`) and the
  sentence-embedding backend are out of the repository; they are modelled as an
  abstract parameter record `SimPrims`, including a flag for whether the
  embedding model is available.
* Python dicts of metadata are modelled as association lists `List (String × MetaVal)`
  with insertion-order semantics, matching `dict` iteration order.
* A calculator that can raise is modelled with `Except String`; the composite's
  `try/except` harness is the explicit `match` in `compositeCombine`.
* Decimal rendering of floats inside human-readable rationale strings is
  approximated by a fixed-point formatter (rounding mode simplified); no
  verified property depends on those strings.
-/

/- Batteries marks the `Rat` field operations `@[irreducible]`; re-enable
unfolding so that `decide` can evaluate the engine on concrete inputs. -/
unseal Rat.add Rat.mul Rat.sub Rat.inv Rat.ofScientific

set_option maxRecDepth 100000

namespace CompareModels

/-- Metadata values stored by the similarity calculators
(`SimilarityResult.metadata : Dict[str, Any]` in `base.py`). -/
inductive MetaVal where
  | str (v : String)
  | num (v : ℚ)
  | flag (v : Bool)
  | strs (v : List String)
  | optStrPair (v : Option (String × String))
  | numMap (v : List (String × ℚ))
  | resultMap (v : List (String × ℚ × ℚ × List (String × MetaVal)))

/-- `SimilarityResult` from `base.py`: score, confidence, technique name and metadata. -/
structure SimilarityResult where
  score : ℚ
  confidence : ℚ
  technique : String
  metadata : List (String × MetaVal) := []

instance : Inhabited SimilarityResult := ⟨⟨0, 0, "", []⟩⟩

/-- `'key' in metadata` on a Python dict. -/
def hasKey (m : List (String × MetaVal)) (k : String) : Bool :=
  m.any (fun kv => kv.1 = k)

/-- `metadata[key]` lookup (first binding). -/
def getKey (m : List (String × MetaVal)) (k : String) : Option MetaVal :=
  (m.find? (fun kv => kv.1 = k)).map (·.2)

/-- External string-metric and embedding primitives consumed by the calculators.
`lev` is `Levenshtein.ratio`, `jw` is `Levenshtein.jaro_winkler`, `tokenSet` is
`fuzz.token_set_ratio` (a value in 0..100), `cos` is the cosine similarity of the
sentence embeddings of two already-prepared strings, and `modelAvailable` records
whether `sentence_transformers` could be imported (`self._model` is not `None`). -/
structure SimPrims where
  lev : String → String → ℚ
  jw : String → String → ℚ
  tokenSet : String → String → ℚ
  cos : String → String → ℚ
  modelAvailable : Bool

/-! ## String utilities shared by the expander and the calculators -/

/-- `re.sub(r'([a-z])([A-Z])', r'\x7b1_\x7d\x7b2\x7d', text)` over the character list:
insert an underscore between a lowercase letter and the following uppercase letter. -/
def camelSplitChars : List Char → List Char
  | a :: b :: rest =>
      if a.isLower ∧ b.isUpper then a :: '_' :: camelSplitChars (b :: rest)
      else a :: camelSplitChars (b :: rest)
  | l => l

/-- Characters collapsed by `re.sub(r'[\s_-]+', '_', ...)`. -/
def isDelim (c : Char) : Bool :=
  c.isWhitespace ∨ c = '_' ∨ c = '-'

/-- Replace every maximal run of whitespace/underscore/hyphen by a single underscore.
The flag records whether the previous character was part of such a run. -/
def collapseDelimsGo : Bool → List Char → List Char
  | _, [] => []
  | prevDelim, c :: rest =>
      if isDelim c then
        (if prevDelim then [] else ['_']) ++ collapseDelimsGo true rest
      else c :: collapseDelimsGo false rest

def collapseDelims (l : List Char) : List Char :=
  collapseDelimsGo false l

/-- Python `str.lower()` for ASCII text.  (The core `String.toLower` is
implemented by a positional loop that does not reduce definitionally; this
character-list version is extensionally identical for ASCII.) -/
def pyLower (s : String) : String :=
  String.mk (s.data.map Char.toLower)

/-- Python `str.upper()` for ASCII text. -/
def pyUpper (s : String) : String :=
  String.mk (s.data.map Char.toUpper)

/-- Splitter on a character predicate, keeping empty pieces; the accumulator
holds the current piece reversed. -/
def splitByGo (p : Char → Bool) : List Char → List Char → List String
  | acc, [] => [String.mk acc.reverse]
  | acc, x :: xs =>
      if p x then String.mk acc.reverse :: splitByGo p [] xs
      else splitByGo p (x :: acc) xs

/-- Python `s.split(c)` for a single-character separator (keeps empty pieces). -/
def splitOnChar (c : Char) (s : String) : List String :=
  splitByGo (fun x => x = c) [] s.data

/-- Python `s.replace(c, r)` for a single-character pattern. -/
def replaceCharWith (c : Char) (r : String) (s : String) : String :=
  String.mk (s.data.flatMap (fun ch => if ch = c then r.data else [ch]))

/-- Stable insertion of `x` into a list ordered by the strict comes-before
test `gt`: `x` lands before the first element that does not strictly precede
it, so equal keys keep their original order. -/
def pyInsertSorted {α : Type} (gt : α → α → Bool) (x : α) : List α → List α
  | [] => [x]
  | y :: ys => if gt y x then y :: pyInsertSorted gt x ys else x :: y :: ys

/-- Stable descending sort by the strict comes-before test `gt`, matching
Python's stable `sorted(..., reverse=True)`. -/
def pySortDesc {α : Type} (gt : α → α → Bool) : List α → List α
  | [] => []
  | x :: xs => pyInsertSorted gt x (pySortDesc gt xs)

/-- Python `str.capitalize()`: first character uppercased, the rest lowercased. -/
def pyCapitalize (s : String) : String :=
  match s.data with
  | [] => ""
  | c :: cs => String.mk (c.toUpper :: cs.map Char.toLower)

/-- Python `str.isupper()` for ASCII text: at least one cased character and no
lowercase character. -/
def pyIsUpper (s : String) : Bool :=
  s.data.any Char.isUpper ∧ s.data.all (fun c => ¬ c.isLower)

/-- Python `str.split()` with no argument: split on whitespace, dropping empties. -/
def pySplitWhitespace (s : String) : List String :=
  (splitByGo Char.isWhitespace [] s.data).filter (fun w => ¬ w.isEmpty)

/-- Substring containment, Python `sub in s`. -/
def strContains (s sub : String) : Bool :=
  s.data.tails.any (fun t => sub.data.isPrefixOf t)

/-- `re.sub(r'(?<!^)(?=[A-Z])', '_', s)`: insert an underscore before every
uppercase letter that is not the first character. -/
def underscoreBeforeUpper (s : String) : String :=
  match s.data with
  | [] => ""
  | c :: rest =>
      String.mk (c :: rest.flatMap (fun d => if d.isUpper then ['_', d] else [d]))

/-! ## Abbreviation expander (`base.py`, `AbbreviationExpander`) -/

/-- Modelled from the spec: the contents of `NEO4J_ABBREVIATIONS`
(`abbreviations.py` is not part of the provided sources; only its import in
`base.py` is). §4.1 and §9 of the spec describe the dictionary as swappable
hardcoded financial/banking vocabulary with documented examples such as
`custnum → customer number`, `CUSTNUM`, `TXN_AMT`, `ACCTNUM`;
the expansion algorithm, not the exact dictionary contents, is normative. -/
def NEO4J_ABBREVIATIONS : List (String × String) :=
  [("custnum", "customer_number"), ("cust", "customer"), ("customer", "customer"),
   ("acctnum", "account_number"), ("acct", "account"), ("acc", "account"),
   ("account", "account"), ("txn", "transaction"), ("trx", "transaction"),
   ("transaction", "transaction"), ("amt", "amount"), ("amount", "amount"),
   ("num", "number"), ("number", "number"), ("dt", "date"), ("date", "date"),
   ("desc", "description"), ("description", "description"), ("addr", "address"),
   ("address", "address"), ("mov", "movement"), ("movement", "movement"),
   ("seq", "sequence"), ("sequence", "sequence"), ("msg", "message"),
   ("message", "message"), ("fname", "first_name"), ("lname", "last_name"),
   ("dob", "date_of_birth"), ("id", "identifier"), ("identifier", "identifier"),
   ("ref", "reference"), ("reference", "reference")]

/-- Dictionary lookup for one token. -/
def abbrevLookup (t : String) : Option String :=
  (NEO4J_ABBREVIATIONS.find? (fun kv => kv.1 = t)).map (·.2)

/-- `sorted(self.ABBREVIATIONS.keys(), key=len, reverse=True)`: keys ordered by
descending length, ties keeping dictionary order (Python sort is stable). -/
def sortedAbbrevKeys : List String :=
  pySortDesc (fun a b => a.length > b.length) (NEO4J_ABBREVIATIONS.map (·.1))

/-- The greedy longest-known-prefix loop of `expand_text`: repeatedly strip the
first (longest) dictionary key that prefixes the remainder, collecting its
expansion; when none matches, keep the remainder verbatim and stop.
Fuel bounds the iteration count (each successful strip removes at least one
character since dictionary keys are nonempty). -/
def greedyExpandGo : ℕ → String → List String
  | 0, rem => if rem.isEmpty then [] else [rem]
  | fuel + 1, rem =>
      if rem.isEmpty then []
      else
        match sortedAbbrevKeys.find? (fun k => k.data.isPrefixOf rem.data) with
        | some k =>
            ((abbrevLookup k).getD k) :: greedyExpandGo fuel (rem.drop k.length)
        | none => [rem]

/-- `AbbreviationExpander.expand_text`. -/
def expandText (text : String) : String :=
  let processed := pyLower (String.mk (collapseDelims (camelSplitChars text.data)))
  let parts := splitOnChar '_' processed
  let expandedParts := parts.map (fun part =>
    match abbrevLookup part with
    | some e => e
    | none => String.intercalate "_" (greedyExpandGo (part.length + 1) part))
  String.intercalate "_" expandedParts

/-- `AbbreviationExpander._extract_words`: `re.findall(r'[A-Z][a-z]*|[a-z]+', text)`,
lowercased.  The accumulator holds the current word reversed: an uppercase
letter always opens a fresh `[A-Z][a-z]*` word, a lowercase letter extends the
current word (or opens an `[a-z]+` one), anything else ends the current word. -/
def extractWordsGo : List Char → List Char → List String
  | cur, [] => if cur.isEmpty then [] else [String.mk cur.reverse]
  | cur, c :: cs =>
      if c.isUpper then
        (if cur.isEmpty then [] else [String.mk cur.reverse]) ++
          extractWordsGo [c] cs
      else if c.isLower then
        extractWordsGo (c :: cur) cs
      else
        (if cur.isEmpty then [] else [String.mk cur.reverse]) ++
          extractWordsGo [] cs

def extractWords (text : String) : List String :=
  (extractWordsGo [] text.data).map pyLower

/-- `AbbreviationExpander._to_camel_case`. In Python an empty component list
would raise `IndexError`; that cannot happen for the inputs this is called on. -/
def toCamelCase (text : String) : String :=
  match pySplitWhitespace (replaceCharWith '_' " " text) with
  | [] => ""
  | w :: ws => pyLower w ++ String.join (ws.map pyCapitalize)

/-- `AbbreviationExpander._to_pascal_case`. -/
def toPascalCase (text : String) : String :=
  String.join ((pySplitWhitespace (replaceCharWith '_' " " text)).map pyCapitalize)

/-- `list(dict.fromkeys(variations))`: remove duplicates keeping the first
occurrence of each element. -/
def pyDedupGo : List String → List String → List String
  | _, [] => []
  | seen, x :: xs =>
      if seen.contains x then pyDedupGo seen xs else x :: pyDedupGo (x :: seen) xs

def pyDedup (l : List String) : List String :=
  pyDedupGo [] l

/-- `re.search(r'[a-z][A-Z]', text)`: the string has an internal camelCase boundary. -/
def hasCamelBoundary (s : String) : Bool :=
  (s.data.zip s.data.tail).any (fun p => p.1.isLower ∧ p.2.isUpper)

/-- `AbbreviationExpander.get_variations`: ordered variation set with
duplicates removed preserving first occurrence. -/
def getVariations (text : String) : List String :=
  let base := [text, pyLower text, pyUpper text]
  let expanded := expandText text
  let withExpanded :=
    if expanded ≠ pyLower text then
      base ++ [expanded, toCamelCase expanded, toPascalCase expanded]
    else base
  let withUnderscore :=
    if strContains text "_" then
      withExpanded ++ [replaceCharWith '_' "" text, replaceCharWith '_' " " text]
    else withExpanded
  let withSnake :=
    if hasCamelBoundary text then
      let snake := pyLower (String.mk (camelSplitChars text.data))
      withUnderscore ++ [snake, replaceCharWith '_' " " snake]
    else withUnderscore
  let withInitials :=
    if ¬ (text.data.any (fun c => c = '_' ∨ c = '-')) then
      let words := extractWords text
      if words.length > 1 then
        withSnake ++ [String.join (words.map (fun w => pyUpper (w.take 1))),
                      String.intercalate "_" (words.map (fun w => pyUpper (w.take 1)))]
      else withSnake
    else withSnake
  pyDedup withInitials

/-! ## Individual similarity calculators
(`string_similarity.py` and `semantic_similarity.py`) -/

/-- The result every calculator returns when either input is empty. -/
def emptyStringResult (name : String) : SimilarityResult :=
  { score := 0, confidence := 1, technique := name,
    metadata := [("reason", MetaVal.str "empty_string")] }

/-- `LevenshteinSimilarity.calculate`. -/
def levenshteinCalculate (p : SimPrims) (text1 text2 : String) : SimilarityResult :=
  if text1.isEmpty ∨ text2.isEmpty then emptyStringResult "levenshtein"
  else
    let score := p.lev (pyLower text1) (pyLower text2)
    { score := score, confidence := if score > 8/10 then 9/10 else 8/10,
      technique := "levenshtein" }

/-- `JaroWinklerSimilarity.calculate`. -/
def jaroWinklerCalculate (p : SimPrims) (text1 text2 : String) : SimilarityResult :=
  if text1.isEmpty ∨ text2.isEmpty then emptyStringResult "jaro_winkler"
  else
    let score := p.jw (pyLower text1) (pyLower text2)
    { score := score, confidence := if score > 9/10 then 9/10 else 8/10,
      technique := "jaro_winkler" }

/-- `FuzzySimilarity.calculate`: `fuzz.token_set_ratio(...) / 100.0`. -/
def fuzzyCalculate (p : SimPrims) (text1 text2 : String) : SimilarityResult :=
  if text1.isEmpty ∨ text2.isEmpty then emptyStringResult "fuzzy"
  else
    let score := p.tokenSet (pyLower text1) (pyLower text2) / 100
    { score := score, confidence := if score > 9/10 then 9/10 else 8/10,
      technique := "fuzzy" }

/-- The best-pair search of `AbbreviationSimilarity.calculate`: Jaro-Winkler over
the cross product of the two variation lists, keeping the first strictly
improving pair (Python updates on `score > best_score` starting from `0.0`). -/
def abbrevBestPair (p : SimPrims) (variations1 variations2 : List String) :
    Option (String × String) × ℚ :=
  (variations1.flatMap (fun v1 => variations2.map (fun v2 => (v1, v2)))).foldl
    (fun acc pair =>
      let s := p.jw (pyLower pair.1) (pyLower pair.2)
      if s > acc.2 then (some pair, s) else acc)
    (none, 0)

/-- `AbbreviationSimilarity.calculate`. -/
def abbreviationCalculate (p : SimPrims) (text1 text2 : String) : SimilarityResult :=
  if text1.isEmpty ∨ text2.isEmpty then emptyStringResult "abbreviation"
  else
    let variations1 := getVariations text1
    let variations2 := getVariations text2
    let best := abbrevBestPair p variations1 variations2
    let usedExpansion : Bool := match best.1 with
      | some pair => decide (pair ≠ (text1, text2))
      | none => false
    let confidence :=
      match best.1 with
      | some pair =>
          if pair ≠ (text1, text2) then (if best.2 ≥ 8/10 then 95/100 else 85/100)
          else (if best.2 ≥ 8/10 then 7/10 else 6/10)
      | none => if best.2 ≥ 8/10 then 7/10 else 6/10
    { score := best.2, confidence := confidence, technique := "abbreviation",
      metadata := [("variations1", MetaVal.strs variations1),
                   ("variations2", MetaVal.strs variations2),
                   ("best_match", MetaVal.optStrPair best.1),
                   ("used_expansion", MetaVal.flag usedExpansion)] }

/-- `SemanticSimilarity._make_readable`. -/
def makeReadable (text : String) : String :=
  let camel := replaceCharWith '_' " " (String.mk (camelSplitChars text.data))
  let spaced := replaceCharWith '-' " " (replaceCharWith '_' " " camel)
  pyLower (String.intercalate " " (pySplitWhitespace spaced))

/-- `SemanticSimilarity._prepare_text_for_embedding`: expand abbreviations,
prefix the fixed domain-context phrase, convert to readable text. -/
def prepareTextForEmbedding (text : String) : String :=
  "database field property attribute " ++ makeReadable (expandText text)

def clamp01 (q : ℚ) : ℚ := max 0 (min 1 q)

/-- `SemanticSimilarity.calculate`.  The model-availability check precedes the
empty-input check, exactly as in the source.  The `except` fallback branch of
the Python code cannot fire in this total model. -/
def semanticCalculate (p : SimPrims) (text1 text2 : String) : SimilarityResult :=
  if ¬ p.modelAvailable then
    { score := 0, confidence := 0, technique := "semantic",
      metadata := [("reason", MetaVal.str "model_not_available")] }
  else if text1.isEmpty ∨ text2.isEmpty then emptyStringResult "semantic"
  else
    let score := clamp01 (p.cos (prepareTextForEmbedding text1) (prepareTextForEmbedding text2))
    let expandedText1 := expandText text1
    let expandedText2 := expandText text2
    let expandedScore :=
      if expandedText1 ≠ pyLower text1 ∨ expandedText2 ≠ pyLower text2 then
        clamp01 (p.cos (prepareTextForEmbedding expandedText1)
                       (prepareTextForEmbedding expandedText2))
      else 0
    let finalScore := max score expandedScore
    { score := finalScore,
      confidence := if finalScore ≥ 8/10 then 9/10
                    else if finalScore ≥ 6/10 then 8/10 else 7/10,
      technique := "semantic",
      metadata := [("raw_score", MetaVal.num score),
                   ("expanded_score", MetaVal.num expandedScore),
                   ("used_expansion", MetaVal.flag (expandedScore > score)),
                   ("embedding_model", MetaVal.str "sentence-transformers"),
                   ("prepared_text1", MetaVal.str (prepareTextForEmbedding text1)),
                   ("prepared_text2", MetaVal.str (prepareTextForEmbedding text2))] }

/-- `ContextualSimilarity.domain_synonyms` (hardcoded in the source). -/
def domainSynonyms : List (String × List String) :=
  [("customer", ["client", "user", "person", "individual", "holder"]),
   ("account", ["acct", "acc", "wallet", "profile"]),
   ("transaction", ["txn", "tx", "trx", "payment", "transfer", "operation"]),
   ("amount", ["amt", "value", "sum", "total", "balance"]),
   ("identifier", ["id", "key", "code", "number", "ref"]),
   ("date", ["dt", "time", "timestamp", "when", "created"]),
   ("type", ["typ", "kind", "category", "class"]),
   ("status", ["state", "condition", "flag", "indicator"]),
   ("description", ["desc", "detail", "info", "comment"]),
   ("address", ["addr", "location", "place"])]

/-- `ContextualSimilarity.field_patterns` (hardcoded in the source). -/
def fieldPatterns : List (String × List String) :=
  [("primary_key", ["id", "key", "identifier", "number"]),
   ("foreign_key", ["ref", "reference", "link", "pointer"]),
   ("monetary", ["amount", "balance", "sum", "total", "value"]),
   ("temporal", ["date", "time", "timestamp", "created", "updated"]),
   ("categorical", ["type", "category", "class", "kind", "status"]),
   ("descriptive", ["name", "title", "description", "comment", "note"])]

/-- `ContextualSimilarity._get_domain_score`. -/
def getDomainScore (text1 text2 : String) : ℚ :=
  let t1 := pyLower text1
  let t2 := pyLower text2
  if domainSynonyms.any (fun cs =>
       (cs.1 :: cs.2).any (fun term => strContains t1 term) ∧
       (cs.1 :: cs.2).any (fun term => strContains t2 term)) then 9/10
  else
    let patterns1 := (fieldPatterns.filter (fun pk => pk.2.any (fun kw => strContains t1 kw))).map (·.1)
    let patterns2 := (fieldPatterns.filter (fun pk => pk.2.any (fun kw => strContains t2 kw))).map (·.1)
    if patterns1.any (fun q => patterns2.contains q) then 7/10 else 0

/-- `ContextualSimilarity.calculate`. -/
def contextualCalculate (text1 text2 : String) : SimilarityResult :=
  if text1.isEmpty ∨ text2.isEmpty then emptyStringResult "contextual"
  else
    let domainScore := getDomainScore text1 text2
    let expandedText1 := expandText text1
    let expandedText2 := expandText text2
    let expandedDomainScore := getDomainScore expandedText1 expandedText2
    let finalScore := max domainScore expandedDomainScore
    { score := finalScore,
      confidence := if finalScore ≥ 8/10 then 95/100
                    else if finalScore ≥ 6/10 then 8/10 else 6/10,
      technique := "contextual",
      metadata := [("domain_score", MetaVal.num domainScore),
                   ("expanded_domain_score", MetaVal.num expandedDomainScore),
                   ("used_expansion", MetaVal.flag (expandedDomainScore > domainScore)),
                   ("expanded_text1", MetaVal.str expandedText1),
                   ("expanded_text2", MetaVal.str expandedText2)] }

/-! ## Composite and adaptive similarity (`composite_similarity.py`) -/

/-- `CompositeSimilarity.default_weights`. -/
def defaultWeights : List (String × ℚ) :=
  [("levenshtein", 1/10), ("jaro_winkler", 3/20), ("fuzzy", 3/10),
   ("abbreviation", 7/20), ("semantic", 1/20), ("contextual", 1/20)]

/-- `calc_weights.get(calc_name, 0.0)`. -/
def weightOf (w : List (String × ℚ)) (name : String) : ℚ :=
  ((w.find? (fun kv => kv.1 = name)).map (·.2)).getD 0

/-- The error placeholder recorded when a calculator raises: score `0.0`,
confidence `0.1`, the error message in metadata. -/
def errorResult (name msg : String) : SimilarityResult :=
  { score := 0, confidence := 1/10, technique := name,
    metadata := [("error", MetaVal.str msg)] }

/-- A calculator that can raise; `Except.error` models a Python exception. -/
abbrev RaisingCalc := String → String → Except String SimilarityResult

/-- Python `results[name] = value` on a dict: replace in place if the key is
already bound, append otherwise. -/
def dictInsert (l : List (String × SimilarityResult)) (k : String)
    (v : SimilarityResult) : List (String × SimilarityResult) :=
  if l.any (fun kv => kv.1 = k) then
    l.map (fun kv => if kv.1 = k then (k, v) else kv)
  else l ++ [(k, v)]

/-- One iteration of the `for calc_name, calculator in self.calculators.items()`
loop of `CompositeSimilarity.calculate`: run the calculator inside the
`try/except`; on success record the result and add to the weighted score and
confidence totals, on an exception record `errorResult` and add nothing. -/
def compositeStep (cw : List (String × ℚ)) (text1 text2 : String)
    (acc : List (String × SimilarityResult) × ℚ × ℚ) (nc : String × RaisingCalc) :
    List (String × SimilarityResult) × ℚ × ℚ :=
  match nc.2 text1 text2 with
  | Except.ok r =>
      (dictInsert acc.1 nc.1 r,
       acc.2.1 + r.score * weightOf cw nc.1,
       acc.2.2 + r.confidence * weightOf cw nc.1)
  | Except.error e =>
      (dictInsert acc.1 nc.1 (errorResult nc.1 e), acc.2.1, acc.2.2)

/-- The whole calculator loop of `CompositeSimilarity.calculate`. -/
def compositeLoop (calcs : List (String × RaisingCalc)) (cw : List (String × ℚ))
    (text1 text2 : String) : List (String × SimilarityResult) × ℚ × ℚ :=
  calcs.foldl (compositeStep cw text1 text2) ([], 0, 0)

/-- `max(results.values(), key=lambda r: r.score)`: first result attaining the
maximal score (Python `max` keeps the earliest maximum).  Python raises on an
empty sequence; the default is returned instead, and the composite instance
always passes six results. -/
def firstMaxByScore : List SimilarityResult → SimilarityResult
  | [] => default
  | r :: rs => rs.foldl (fun acc x => if x.score > acc.score then x else acc) r

/-- The body of `CompositeSimilarity.calculate` after the empty-input check:
run every registered calculator, combine with the weight vector `cw`,
apply the consistency boost, clamp with `min 1`, and assemble the metadata. -/
def compositeCombine (calcs : List (String × RaisingCalc)) (cw : List (String × ℚ))
    (name : String) (text1 text2 : String) : SimilarityResult :=
  let loopResult := compositeLoop calcs cw text1 text2
  let results := loopResult.1
  let totalWeightedScore := loopResult.2.1
  let totalWeightedConfidence := loopResult.2.2
  let highScoreCount := results.countP (fun kv => kv.2.score ≥ 8/10)
  let consistencyBoost := min (15/100) ((highScoreCount : ℚ) * (5/100))
  let finalScore := min 1 (totalWeightedScore + consistencyBoost)
  let finalConfidence := min 1 totalWeightedConfidence
  let bestIndividual := firstMaxByScore (results.map (·.2))
  { score := finalScore, confidence := finalConfidence, technique := name,
    metadata :=
      [("individual_results", MetaVal.resultMap (results.map
          (fun kv => (kv.1, kv.2.score, kv.2.confidence, kv.2.metadata)))),
       ("weights_used", MetaVal.numMap cw),
       ("consistency_boost", MetaVal.num consistencyBoost),
       ("high_score_count", MetaVal.num (highScoreCount : ℚ)),
       ("best_individual_technique", MetaVal.str bestIndividual.technique),
       ("best_individual_score", MetaVal.num bestIndividual.score)] }

/-- `self.calculators` of `CompositeSimilarity`, in dict insertion order.  Each
in-repository calculator is total, hence always `Except.ok`. -/
def sixCalculators (p : SimPrims) : List (String × RaisingCalc) :=
  [("levenshtein", fun a b => Except.ok (levenshteinCalculate p a b)),
   ("jaro_winkler", fun a b => Except.ok (jaroWinklerCalculate p a b)),
   ("fuzzy", fun a b => Except.ok (fuzzyCalculate p a b)),
   ("abbreviation", fun a b => Except.ok (abbreviationCalculate p a b)),
   ("semantic", fun a b => Except.ok (semanticCalculate p a b)),
   ("contextual", fun a b => Except.ok (contextualCalculate a b))]

/-- `CompositeSimilarity.calculate` of the default-constructed instance:
`self.weights = default_weights` (already summing to `1.0`, so the constructor
does not renormalize); an explicit `weights` argument overrides them. -/
def compositeCalculate (p : SimPrims) (weights : Option (List (String × ℚ)))
    (text1 text2 : String) : SimilarityResult :=
  if text1.isEmpty ∨ text2.isEmpty then
    { score := 0, confidence := 1, technique := "composite",
      metadata := [("reason", MetaVal.str "empty_string")] }
  else
    compositeCombine (sixCalculators p) (weights.getD defaultWeights) "composite"
      text1 text2

/-- `AdaptiveSimilarity._analyze_string_characteristics`, restricted to the
fields the weight computation reads. -/
structure StringCharacteristics where
  length : ℕ
  hasCamelcase : Bool
  isAbbreviationLike : Bool

def analyzeStringCharacteristics (text : String) : StringCharacteristics :=
  { length := text.length,
    hasCamelcase := (text.data.zip text.data.tail).any
      (fun pr => pr.1.isLower ∧ pr.2.isUpper),
    isAbbreviationLike := text.length ≤ 8 ∧ pyIsUpper text }

/-- Add `delta` to the weight bound to `name`. -/
def adjustWeight (w : List (String × ℚ)) (name : String) (delta : ℚ) :
    List (String × ℚ) :=
  w.map (fun kv => if kv.1 = name then (kv.1, kv.2 + delta) else kv)

/-- `AdaptiveSimilarity._compute_adaptive_weights`. -/
def computeAdaptiveWeights (text1 text2 : String) : List (String × ℚ) :=
  let char1 := analyzeStringCharacteristics text1
  let char2 := analyzeStringCharacteristics text2
  let avgLength : ℚ := ((char1.length : ℚ) + (char2.length : ℚ)) / 2
  let w0 := defaultWeights
  let w1 :=
    if avgLength ≤ 8 ∨ char1.isAbbreviationLike ∨ char2.isAbbreviationLike then
      adjustWeight (adjustWeight (adjustWeight (adjustWeight w0
        "abbreviation" (1/10)) "jaro_winkler" (1/20)) "semantic" (-(1/10)))
        "contextual" (-(1/20))
    else if avgLength > 15 then
      adjustWeight (adjustWeight (adjustWeight (adjustWeight w0
        "semantic" (1/10)) "contextual" (1/20)) "levenshtein" (-(1/10)))
        "abbreviation" (-(1/20))
    else w0
  let w2 :=
    if char1.hasCamelcase ∧ char2.hasCamelcase then
      adjustWeight (adjustWeight w1 "fuzzy" (1/20)) "levenshtein" (-(1/20))
    else w1
  let weightSum := (w2.map (·.2)).sum
  if weightSum > 0 then w2.map (fun kv => (kv.1, kv.2 / weightSum)) else w2

/-- `AdaptiveSimilarity.calculate`: empty-input check, adaptive weights,
delegate to the composite, relabel the technique and record the weights. -/
def adaptiveCalculate (p : SimPrims) (text1 text2 : String) : SimilarityResult :=
  if text1.isEmpty ∨ text2.isEmpty then
    { score := 0, confidence := 1, technique := "adaptive",
      metadata := [("reason", MetaVal.str "empty_string")] }
  else
    let adaptiveWeights := computeAdaptiveWeights text1 text2
    let result := compositeCalculate p (some adaptiveWeights) text1 text2
    { result with technique := "adaptive",
                  metadata := result.metadata ++
                    [("adaptive_weights", MetaVal.numMap adaptiveWeights)] }

/-! ## Schema data model (`common/models.py`) -/

structure PropertyDefinition where
  property : String
  type : List String
  mandatory : Bool
deriving DecidableEq, Inhabited

structure Constraint where
  type : String
  properties : List String
  name : Option String := none
deriving Inhabited

structure Index where
  type : String
  properties : List String
  name : Option String := none
  config : Option (List (String × MetaVal)) := none
deriving Inhabited

structure Node where
  cypher_representation : String
  label : String
  additional_labels : List String := []
  indexes : List Index
  constraints : List Constraint
  properties : List PropertyDefinition
  detail : Option String := none
deriving Inhabited

structure Path where
  path : String
deriving DecidableEq, Inhabited

structure Relationship where
  cypher_representation : String
  type : String
  paths : List Path
  properties : List PropertyDefinition
deriving Inhabited

structure GraphSchema where
  nodes : List Node
  relationships : List Relationship

/-! ## Match records (`field_matcher.py`) -/

inductive MatchType where
  | EXACT
  | STRONG
  | MODERATE
  | WEAK
  | NO_MATCH
deriving DecidableEq, Inhabited

structure FieldMatch where
  source_field : String
  target_field : String
  match_type : MatchType
  similarity_result : SimilarityResult
  confidence : ℚ
  recommendations : List String
  technique_contributions : List (String × ℚ) := []
deriving Inhabited

structure NodeMatch where
  source_node : Node
  target_node : Option Node
  label_match : Option FieldMatch
  property_matches : List FieldMatch
  missing_properties : List PropertyDefinition
  extra_properties : List PropertyDefinition
  overall_confidence : ℚ
  all_candidates : List (Node × ℚ) := []
  match_rationale : String := ""
  validation_warnings : List String := []
deriving Inhabited

structure RelationshipMatch where
  source_relationship : Relationship
  target_relationship : Option Relationship
  type_match : Option FieldMatch
  property_matches : List FieldMatch
  missing_properties : List PropertyDefinition
  extra_properties : List PropertyDefinition
  overall_confidence : ℚ
  all_candidates : List (Relationship × ℚ) := []
  match_rationale : String := ""
  validation_warnings : List String := []
deriving Inhabited

/-- A similarity engine as held in `FieldMatcher.similarity_engine`. -/
abbrev Engine := String → String → SimilarityResult

/-- The `FieldMatcher` configuration: threshold, candidate tracking and the
chosen similarity engine (`AdaptiveSimilarity` or `CompositeSimilarity`). -/
structure FieldMatcher where
  similarity_threshold : ℚ
  track_all_candidates : Bool := true
  engine : Engine

/-- `FieldMatcher.__init__` with the given `use_adaptive` flag
(`verbose` has no effect on any computation modelled here). -/
def mkFieldMatcher (p : SimPrims) (useAdaptive : Bool) (threshold : ℚ) : FieldMatcher :=
  { similarity_threshold := threshold,
    track_all_candidates := true,
    engine := if useAdaptive then adaptiveCalculate p
              else fun a b => compositeCalculate p none a b }

/-! ## The greedy selection loop shared by nodes, relationships and properties -/

/-- The loop state of one source element's search: the best match so far, its
score (initially `0.0`), and the tracked candidates. -/
structure SelState (α : Type) where
  best : Option α
  bestScore : ℚ
  cands : List (α × ℚ)

/-- One iteration of the `for standard_... in standard_...:` loop of
`_match_nodes` / `_match_relationships` / `_match_properties`: skip used
targets, track the candidate, and update the best match when the score strictly
exceeds the best so far and meets the threshold. -/
def selStep {α : Type} (key : α → String) (engine : Engine) (threshold : ℚ)
    (track : Bool) (src : String) (used : List String) (st : SelState α) (t : α) :
    SelState α :=
  if used.contains (key t) then st
  else if (engine src (key t)).score > st.bestScore ∧
          (engine src (key t)).score ≥ threshold then
    ⟨some t, (engine src (key t)).score,
     if track then st.cands ++ [(t, (engine src (key t)).score)] else st.cands⟩
  else
    ⟨st.best, st.bestScore,
     if track then st.cands ++ [(t, (engine src (key t)).score)] else st.cands⟩

/-- The whole search loop for one source element. -/
def selectLoop {α : Type} (key : α → String) (engine : Engine) (threshold : ℚ)
    (track : Bool) (src : String) (targets : List α) (used : List String) :
    SelState α :=
  targets.foldl (selStep key engine threshold track src used) ⟨none, 0, []⟩

/-- `all_candidates.sort(key=lambda x: x[1], reverse=True)`: stable sort by
descending score. -/
def sortCandidatesDesc {α : Type} (cands : List (α × ℚ)) : List (α × ℚ) :=
  pySortDesc (fun a b => a.2 > b.2) cands

/-! ## Classification and recommendation texts -/

/-- `FieldMatcher._classify_match_type`. -/
def classifyMatchType (score : ℚ) : MatchType :=
  if score ≥ 95/100 then MatchType.EXACT
  else if score ≥ 85/100 then MatchType.STRONG
  else if score ≥ 70/100 then MatchType.MODERATE
  else if score ≥ 50/100 then MatchType.WEAK
  else MatchType.NO_MATCH

/-- `FieldMatcher._is_underscore_to_camelcase`. -/
def isUnderscoreToCamelcase (underscoreStr camelStr : String) : Bool :=
  let parts := splitOnChar '_' underscoreStr
  if parts.length > 1 then
    decide (parts.headI ++ String.join ((parts.drop 1).map pyCapitalize) = camelStr)
  else
    decide (pyLower (underscoreBeforeUpper camelStr) = underscoreStr)

/-- Fixed-point decimal rendering with the given number of fraction digits,
used for the score values interpolated into rationale strings.  Python formats
IEEE doubles with round-half-even; this model rounds half up, an immaterial
difference for the explanatory strings it feeds. -/
def formatFixed (q : ℚ) (decimals : ℕ) : String :=
  let scaled : ℤ := ⌊q * (10 : ℚ) ^ decimals + 1/2⌋
  let sign := if scaled < 0 then "-" else ""
  let n := scaled.natAbs
  if decimals = 0 then sign ++ toString n
  else
    let intPart := n / 10 ^ decimals
    let fracPart := n % 10 ^ decimals
    let fracDigits := toString fracPart
    let padded := String.mk (List.replicate (decimals - fracDigits.length) '0') ++ fracDigits
    sign ++ toString intPart ++ "." ++ padded

/-- Python `\x7bq:.1%\x7d` percent formatting. -/
def formatPercent1 (q : ℚ) : String :=
  formatFixed (q * 100) 1 ++ "%"

/-- `FieldMatcher._generate_label_recommendations`. -/
def generateLabelRecommendations (customerLabel standardLabel : String)
    (similarity : SimilarityResult) : List String :=
  if similarity.score < 1 then
    if pyLower customerLabel = pyLower standardLabel then
      ["Change node label \x27" ++ customerLabel ++ "\x27 to \x27" ++ standardLabel ++
       "\x27 (case sensitivity)"]
    else
      ["Consider renaming node label \x27" ++ customerLabel ++ "\x27 to \x27" ++
       standardLabel ++ "\x27 for compliance"]
  else []

/-- `FieldMatcher._generate_relationship_recommendations`. -/
def generateRelationshipRecommendations (customerType standardType : String)
    (similarity : SimilarityResult) : List String :=
  if similarity.score < 1 then
    if pyLower customerType = pyLower standardType then
      ["Change relationship type \x27" ++ customerType ++ "\x27 to \x27" ++ standardType ++
       "\x27 (case sensitivity)"]
    else
      ["Consider renaming relationship type \x27" ++ customerType ++ "\x27 to \x27" ++
       standardType ++ "\x27 for compliance"]
  else []

/-- Python `str(...)` of a list of strings, as interpolated by the type-mismatch
message. -/
def pyStrList (l : List String) : String :=
  "[" ++ String.intercalate ", " (l.map (fun s => "\x27" ++ s ++ "\x27")) ++ "]"

/-- `FieldMatcher._generate_property_recommendations`. -/
def generatePropertyRecommendations (customerProp standardProp : PropertyDefinition)
    (similarity : SimilarityResult) : List String :=
  let nameRecs :=
    if similarity.score < 1 then
      if pyLower customerProp.property = pyLower standardProp.property then
        ["Change property name \x27" ++ customerProp.property ++ "\x27 to \x27" ++
         standardProp.property ++ "\x27 (case sensitivity)"]
      else
        ["Rename property \x27" ++ customerProp.property ++ "\x27 to \x27" ++
         standardProp.property ++ "\x27 to match standard"]
    else []
  let typeRecs :=
    if customerProp.type ≠ standardProp.type then
      ["Property type mismatch: \x27" ++ customerProp.property ++ "\x27 is " ++
       pyStrList customerProp.type ++ " but should be " ++ pyStrList standardProp.type]
    else []
  let mandatoryRecs :=
    if ¬ customerProp.mandatory ∧ standardProp.mandatory then
      ["Property \x27" ++ customerProp.property ++
       "\x27 should be mandatory according to the standard"]
    else []
  nameRecs ++ typeRecs ++ mandatoryRecs

/-- `FieldMatcher._extract_technique_contributions`: look for a
`composite_scores` or `technique_scores` breakdown in the metadata, falling
back to the single entry `technique ↦ score`.  (The `some _` arms are
unreachable for every engine defined in this file: neither key is ever
written.) -/
def extractTechniqueContributions (r : SimilarityResult) : List (String × ℚ) :=
  match getKey r.metadata "composite_scores" with
  | some (MetaVal.numMap m) => m
  | some _ => []
  | none =>
      match getKey r.metadata "technique_scores" with
      | some (MetaVal.numMap m) => m
      | some _ => []
      | none => [(r.technique, r.score)]

/-- `FieldMatcher._generate_match_rationale`. -/
def generateMatchRationale (sourceName targetName : String) (score : ℚ)
    (techniqueContributions : List (String × ℚ)) : String :=
  let headPart := "\x27" ++ sourceName ++ "\x27 matched to \x27" ++ targetName ++
    "\x27 with " ++ formatPercent1 score ++ " confidence."
  if techniqueContributions.isEmpty then headPart
  else
    let sorted := pySortDesc (fun a b => a.2 > b.2) techniqueContributions
    let primary := sorted.headI
    let explanations : List (String × String) :=
      [("abbreviation", "abbreviation expansion"), ("semantic", "semantic similarity"),
       ("fuzzy", "fuzzy string matching"), ("levenshtein", "character similarity"),
       ("jaro_winkler", "string similarity"), ("contextual", "domain knowledge")]
    let explanation :=
      (((explanations.find? (fun kv => kv.1 = primary.1)).map (·.2)).getD primary.1)
    headPart ++ " " ++ "Primary reason: " ++ explanation ++ " (" ++
      formatPercent1 primary.2 ++ ")"

/-- `FieldMatcher._generate_no_match_rationale`, generic over the element kind
(the Python code reads `.label` or `.type` by attribute probing). -/
def generateNoMatchRationale {α : Type} (key : α → String) (threshold : ℚ)
    (sourceName : String) (candidates : List (α × ℚ)) : String :=
  match candidates with
  | [] => "No candidates found for \x27" ++ sourceName ++
          "\x27 - the standard schema may not include this element."
  | (bestCandidate, bestScore) :: _ =>
      "No suitable match for \x27" ++ sourceName ++ "\x27. Best candidate was \x27" ++
      key bestCandidate ++ "\x27 with score " ++ formatFixed bestScore 2 ++
      " (below threshold " ++ formatFixed threshold 1 ++ ")"

/-! ## Property matching (`FieldMatcher._match_properties`) -/

/-- The per-customer-property loop of `_match_properties`, threading the
`used_standard_props` set through the whole pass and returning the produced
`FieldMatch` list together with the final used set. -/
def matchPropertiesGo (m : FieldMatcher) (standardProps : List PropertyDefinition) :
    List PropertyDefinition → List String → List FieldMatch × List String
  | [], used => ([], used)
  | customerProp :: rest, used =>
      let st := selectLoop PropertyDefinition.property m.engine
        m.similarity_threshold false customerProp.property standardProps used
      match st.best with
      | some bestMatch =>
          let isUnderscoreToCamel :=
            isUnderscoreToCamelcase customerProp.property bestMatch.property
          let isCaseOnlyDiff :=
            pyLower customerProp.property = pyLower bestMatch.property ∧
            customerProp.property ≠ bestMatch.property
          let matchType0 := classifyMatchType st.bestScore
          let matchType :=
            if (isUnderscoreToCamel ∨ isCaseOnlyDiff) ∧ matchType0 = MatchType.EXACT
            then MatchType.STRONG else matchType0
          -- the source re-calculates to get a fresh result with metadata
          let propSimilarity := m.engine customerProp.property bestMatch.property
          let techniqueContributions := extractTechniqueContributions propSimilarity
          let propMatch : FieldMatch :=
            { source_field := customerProp.property,
              target_field := bestMatch.property,
              match_type := matchType,
              similarity_result := propSimilarity,
              confidence := propSimilarity.confidence,
              recommendations :=
                generatePropertyRecommendations customerProp bestMatch propSimilarity,
              technique_contributions := techniqueContributions }
          let tail := matchPropertiesGo m standardProps rest (bestMatch.property :: used)
          (propMatch :: tail.1, tail.2)
      | none => matchPropertiesGo m standardProps rest used

/-- `FieldMatcher._match_properties`: greedy 1:1 property matching plus the
missing (standard-side, never claimed) and extra (customer-side, never matched)
property lists. -/
def matchProperties (m : FieldMatcher) (customerProps standardProps : List PropertyDefinition) :
    List FieldMatch × List PropertyDefinition × List PropertyDefinition :=
  let go := matchPropertiesGo m standardProps customerProps []
  let propMatchList := go.1
  let usedStandardProps := go.2
  let missingProps := standardProps.filter
    (fun prop => ¬ usedStandardProps.contains prop.property)
  let matchedCustomerProps := propMatchList.map (·.source_field)
  let extraProps := customerProps.filter
    (fun prop => ¬ matchedCustomerProps.contains prop.property)
  (propMatchList, missingProps, extraProps)

/-! ## Confidence aggregation and validation -/

/-- `FieldMatcher._calculate_node_confidence` (the `label_match is None` guard
is unreachable here: a label match is always supplied). -/
def calculateNodeConfidence (labelMatch : FieldMatch) (propertyMatches : List FieldMatch)
    (missingProps extraProps : List PropertyDefinition) : ℚ :=
  let base := labelMatch.confidence * (4/10)
  let withProps :=
    if propertyMatches.isEmpty then base
    else base + ((propertyMatches.map (·.confidence)).sum /
                  (propertyMatches.length : ℚ)) * (4/10)
  let mandatoryMissing := (missingProps.filter (·.mandatory)).length
  let penalized := withProps - (mandatoryMissing : ℚ) * (1/10) -
    (extraProps.length : ℚ) * (2/100)
  max 0 (min 1 penalized)

/-- `FieldMatcher._calculate_relationship_confidence`. -/
def calculateRelationshipConfidence (typeMatch : FieldMatch)
    (propertyMatches : List FieldMatch) (missingProps : List PropertyDefinition) : ℚ :=
  let base := typeMatch.confidence * (5/10)
  let withProps :=
    if propertyMatches.isEmpty then base
    else base + ((propertyMatches.map (·.confidence)).sum /
                  (propertyMatches.length : ℚ)) * (3/10)
  let mandatoryMissing := (missingProps.filter (·.mandatory)).length
  max 0 (min 1 (withProps - (mandatoryMissing : ℚ) * (5/100)))

/-- Lowercased, deduplicated property-name set of a property list
(Python builds a `set`). -/
def propNameSet (props : List PropertyDefinition) : List String :=
  pyDedup (props.map (fun p => pyLower p.property))

/-- `FieldMatcher._validate_node_match`. -/
def validateNodeMatch (sourceNode targetNode : Node)
    (missingProperties : List PropertyDefinition) : List String :=
  let sourceNames := propNameSet sourceNode.properties
  let targetNames := propNameSet targetNode.properties
  let compatWarnings :=
    if ¬ sourceNames.isEmpty ∧ ¬ targetNames.isEmpty then
      let overlap := (sourceNames.filter (fun x => targetNames.contains x)).length
      let total := (sourceNames ++ targetNames.filter
        (fun x => ¬ sourceNames.contains x)).length
      let compatibility : ℚ := if total > 0 then (overlap : ℚ) / (total : ℚ) else 0
      if compatibility < 2/10 then
        ["Low property compatibility (" ++ formatPercent1 compatibility ++
         ") between \x27" ++ sourceNode.label ++ "\x27 and \x27" ++ targetNode.label ++ "\x27"]
      else []
    else []
  let mandatoryMissing := missingProperties.filter (·.mandatory)
  let mandatoryWarnings :=
    if ¬ mandatoryMissing.isEmpty then
      ["Missing " ++ toString mandatoryMissing.length ++ " mandatory properties: " ++
       String.intercalate ", " ((mandatoryMissing.take 3).map (·.property)) ++
       (if mandatoryMissing.length > 3 then "..." else "")]
    else []
  compatWarnings ++ mandatoryWarnings

/-- `\w` of the `:(\w+)` pattern. -/
def isWordChar (c : Char) : Bool :=
  c.isAlpha ∨ c.isDigit ∨ c = '_'

/-- `re.findall(r':(\w+)', path)`: the word-character runs directly following
each colon. -/
def nodeTokensOfPath (s : String) : List String :=
  (((splitOnChar ':' s).drop 1).map (fun part => part.data.takeWhile isWordChar)).filterMap
    (fun run => if run.isEmpty then none else some (String.mk run))

/-- `FieldMatcher._validate_relationship_match`. -/
def validateRelationshipMatch (sourceRel targetRel : Relationship)
    (missingProperties : List PropertyDefinition) : List String :=
  let sourceNodes := (sourceRel.paths.flatMap (fun p => nodeTokensOfPath p.path))
  let targetNodes := (targetRel.paths.flatMap (fun p => nodeTokensOfPath p.path))
  let pathWarnings :=
    if ¬ sourceNodes.isEmpty ∧ ¬ targetNodes.isEmpty ∧
       (sourceNodes.filter (fun x => targetNodes.contains x)).isEmpty then
      ["Relationship \x27" ++ sourceRel.type ++
       "\x27 connects different node types than \x27" ++ targetRel.type ++ "\x27"]
    else []
  let mandatoryMissing := missingProperties.filter (·.mandatory)
  let mandatoryWarnings :=
    if ¬ mandatoryMissing.isEmpty then
      ["Missing " ++ toString mandatoryMissing.length ++
       " mandatory relationship properties"]
    else []
  pathWarnings ++ mandatoryWarnings

/-! ## Node and relationship matching passes -/

/-- `FieldMatcher._create_node_match`. -/
def createNodeMatch (m : FieldMatcher) (customerNode standardNode : Node)
    (allCandidates : List (Node × ℚ)) : NodeMatch :=
  let labelSimilarity := m.engine customerNode.label standardNode.label
  let isCaseOnlyDiff :=
    pyLower customerNode.label = pyLower standardNode.label ∧
    customerNode.label ≠ standardNode.label
  let matchType0 := classifyMatchType labelSimilarity.score
  let matchType :=
    if isCaseOnlyDiff ∧ matchType0 = MatchType.EXACT then MatchType.STRONG
    else matchType0
  let techniqueContributions := extractTechniqueContributions labelSimilarity
  let labelMatch : FieldMatch :=
    { source_field := customerNode.label,
      target_field := standardNode.label,
      match_type := matchType,
      similarity_result := labelSimilarity,
      confidence := labelSimilarity.confidence,
      recommendations :=
        generateLabelRecommendations customerNode.label standardNode.label labelSimilarity,
      technique_contributions := techniqueContributions }
  let props := matchProperties m customerNode.properties standardNode.properties
  let overallConfidence :=
    calculateNodeConfidence labelMatch props.1 props.2.1 props.2.2
  let validationWarnings := validateNodeMatch customerNode standardNode props.2.1
  let matchRationale := generateMatchRationale customerNode.label standardNode.label
    labelSimilarity.score techniqueContributions
  { source_node := customerNode,
    target_node := some standardNode,
    label_match := some labelMatch,
    property_matches := props.1,
    missing_properties := props.2.1,
    extra_properties := props.2.2,
    overall_confidence := overallConfidence,
    all_candidates := allCandidates,
    match_rationale := matchRationale,
    validation_warnings := validationWarnings }

/-- `FieldMatcher._create_relationship_match`. -/
def createRelationshipMatch (m : FieldMatcher) (customerRel standardRel : Relationship)
    (allCandidates : List (Relationship × ℚ)) : RelationshipMatch :=
  let typeSimilarity := m.engine customerRel.type standardRel.type
  let isCaseOnlyDiff :=
    pyLower customerRel.type = pyLower standardRel.type ∧
    customerRel.type ≠ standardRel.type
  let matchType0 := classifyMatchType typeSimilarity.score
  let matchType :=
    if isCaseOnlyDiff ∧ matchType0 = MatchType.EXACT then MatchType.STRONG
    else matchType0
  let techniqueContributions := extractTechniqueContributions typeSimilarity
  let typeMatch : FieldMatch :=
    { source_field := customerRel.type,
      target_field := standardRel.type,
      match_type := matchType,
      similarity_result := typeSimilarity,
      confidence := typeSimilarity.confidence,
      recommendations :=
        generateRelationshipRecommendations customerRel.type standardRel.type typeSimilarity,
      technique_contributions := techniqueContributions }
  let props := matchProperties m customerRel.properties standardRel.properties
  let overallConfidence :=
    calculateRelationshipConfidence typeMatch props.1 props.2.1
  let validationWarnings := validateRelationshipMatch customerRel standardRel props.2.1
  let matchRationale := generateMatchRationale customerRel.type standardRel.type
    typeSimilarity.score techniqueContributions
  { source_relationship := customerRel,
    target_relationship := some standardRel,
    type_match := some typeMatch,
    property_matches := props.1,
    missing_properties := props.2.1,
    extra_properties := props.2.2,
    overall_confidence := overallConfidence,
    all_candidates := allCandidates,
    match_rationale := matchRationale,
    validation_warnings := validationWarnings }

/-- The recursion of `FieldMatcher._match_nodes`, threading the
`used_standard_nodes` label set. -/
def matchNodesGo (m : FieldMatcher) (standardNodes : List Node) :
    List Node → List String → List NodeMatch
  | [], _ => []
  | customerNode :: rest, used =>
      let st := selectLoop Node.label m.engine m.similarity_threshold
        m.track_all_candidates customerNode.label standardNodes used
      let allCandidates :=
        if m.track_all_candidates then sortCandidatesDesc st.cands else st.cands
      match st.best with
      | some bestMatch =>
          createNodeMatch m customerNode bestMatch allCandidates ::
            matchNodesGo m standardNodes rest (bestMatch.label :: used)
      | none =>
          { source_node := customerNode,
            target_node := none,
            label_match := none,
            property_matches := [],
            missing_properties := [],
            extra_properties := customerNode.properties,
            overall_confidence := 0,
            all_candidates := allCandidates,
            match_rationale := generateNoMatchRationale Node.label
              m.similarity_threshold customerNode.label allCandidates } ::
            matchNodesGo m standardNodes rest used

/-- `FieldMatcher._match_nodes`. -/
def matchNodes (m : FieldMatcher) (customerNodes standardNodes : List Node) :
    List NodeMatch :=
  matchNodesGo m standardNodes customerNodes []

/-- The recursion of `FieldMatcher._match_relationships`, threading the
`used_standard_rels` type set. -/
def matchRelationshipsGo (m : FieldMatcher) (standardRels : List Relationship) :
    List Relationship → List String → List RelationshipMatch
  | [], _ => []
  | customerRel :: rest, used =>
      let st := selectLoop Relationship.type m.engine m.similarity_threshold
        m.track_all_candidates customerRel.type standardRels used
      let allCandidates :=
        if m.track_all_candidates then sortCandidatesDesc st.cands else st.cands
      match st.best with
      | some bestMatch =>
          createRelationshipMatch m customerRel bestMatch allCandidates ::
            matchRelationshipsGo m standardRels rest (bestMatch.type :: used)
      | none =>
          { source_relationship := customerRel,
            target_relationship := none,
            type_match := none,
            property_matches := [],
            missing_properties := [],
            extra_properties := customerRel.properties,
            overall_confidence := 0,
            all_candidates := allCandidates,
            match_rationale := generateNoMatchRationale Relationship.type
              m.similarity_threshold customerRel.type allCandidates } ::
            matchRelationshipsGo m standardRels rest used

/-- `FieldMatcher._match_relationships`. -/
def matchRelationships (m : FieldMatcher)
    (customerRels standardRels : List Relationship) : List RelationshipMatch :=
  matchRelationshipsGo m standardRels customerRels []

/-! ## Schema-level aggregation (`FieldMatcher.match_schemas`) -/

/-- `FieldMatcher._calculate_compliance_score`: arithmetic mean of every
element's overall confidence, `0.0` when there are no elements. -/
def calculateComplianceScore (nodeMatches : List NodeMatch)
    (relationshipMatches : List RelationshipMatch) : ℚ :=
  let totalElements := nodeMatches.length + relationshipMatches.length
  if totalElements = 0 then 0
  else ((nodeMatches.map (·.overall_confidence)).sum +
        (relationshipMatches.map (·.overall_confidence)).sum) / (totalElements : ℚ)

/-- `FieldMatcher._generate_schema_recommendations`. -/
def generateSchemaRecommendations (nodeMatches : List NodeMatch)
    (relationshipMatches : List RelationshipMatch) : List String :=
  let unmatchedNodes := nodeMatches.countP (fun nm => nm.target_node.isNone)
  let unmatchedRels := relationshipMatches.countP (fun rm => rm.target_relationship.isNone)
  let nodeRecs :=
    if unmatchedNodes > 0 then
      [toString unmatchedNodes ++ " node(s) in your schema don\x27t match the standard model"]
    else []
  let relRecs :=
    if unmatchedRels > 0 then
      [toString unmatchedRels ++
       " relationship(s) in your schema don\x27t match the standard model"]
    else []
  let caseIssues := nodeMatches.countP (fun nm =>
    match nm.label_match with
    | some lm =>
        decide (lm.match_type ≠ MatchType.EXACT) &&
        (match nm.target_node with
         | some t => decide (pyLower nm.source_node.label = pyLower t.label)
         | none => false)
    | none => false)
  let caseRecs :=
    if caseIssues > 0 then
      [toString caseIssues ++ " node label(s) have case sensitivity issues"]
    else []
  nodeRecs ++ relRecs ++ caseRecs

structure MatchSummary where
  total_customer_nodes : ℕ
  total_standard_nodes : ℕ
  matched_nodes : ℕ
  total_customer_relationships : ℕ
  total_standard_relationships : ℕ
  matched_relationships : ℕ
  overall_compliance_score : ℚ

structure MatchResults where
  node_matches : List NodeMatch
  relationship_matches : List RelationshipMatch
  summary : MatchSummary
  recommendations : List String

/-- `FieldMatcher.match_schemas`. -/
def matchSchemas (m : FieldMatcher) (customerSchema standardSchema : GraphSchema) :
    MatchResults :=
  let nodeMatches := matchNodes m customerSchema.nodes standardSchema.nodes
  let relationshipMatches :=
    matchRelationships m customerSchema.relationships standardSchema.relationships
  { node_matches := nodeMatches,
    relationship_matches := relationshipMatches,
    summary :=
      { total_customer_nodes := customerSchema.nodes.length,
        total_standard_nodes := standardSchema.nodes.length,
        matched_nodes := nodeMatches.countP (fun nm => nm.target_node.isSome),
        total_customer_relationships := customerSchema.relationships.length,
        total_standard_relationships := standardSchema.relationships.length,
        matched_relationships :=
          relationshipMatches.countP (fun rm => rm.target_relationship.isSome),
        overall_compliance_score :=
          calculateComplianceScore nodeMatches relationshipMatches },
    recommendations := generateSchemaRecommendations nodeMatches relationshipMatches }

/-! ## Comparator (`core/comparator.py`) -/

/-- `_calculate_compliance_level`: the deterministic classification of the
overall compliance score and the number of critical recommendations.
(The Python function also computes `important_count` but never uses it.) -/
def calculateComplianceLevel (complianceScore : ℚ) (criticalCount : ℕ) : String :=
  if criticalCount = 0 ∧ complianceScore ≥ 95/100 then "excellent"
  else if criticalCount = 0 ∧ complianceScore ≥ 85/100 then "good"
  else if criticalCount ≤ 2 ∧ complianceScore ≥ 70/100 then "fair"
  else if criticalCount ≤ 5 ∧ complianceScore ≥ 50/100 then "poor"
  else "critical"

/-! ## Auxiliary definitions used by the verified properties -/

/-- The entry one calculator contributes to the composite's `results` dict: its
own result on success, the absorbed `errorResult` when it raises. -/
def absorbCalc (text1 text2 : String) (nc : String × RaisingCalc) :
    String × SimilarityResult :=
  match nc.2 text1 text2 with
  | Except.ok r => (nc.1, r)
  | Except.error e => (nc.1, errorResult nc.1 e)

/-- The confidence a calculator adds to the composite's weighted confidence
total: `confidence × weight` on success, nothing when it raises. -/
def confContrib (cw : List (String × ℚ)) (text1 text2 : String)
    (nc : String × RaisingCalc) : ℚ :=
  match nc.2 text1 text2 with
  | Except.ok r => r.confidence * weightOf cw nc.1
  | Except.error _ => 0

/-- The six technique results of one composite calculation, in registry order. -/
def sixResults (p : SimPrims) (text1 text2 : String) :
    List (String × SimilarityResult) :=
  [("levenshtein", levenshteinCalculate p text1 text2),
   ("jaro_winkler", jaroWinklerCalculate p text1 text2),
   ("fuzzy", fuzzyCalculate p text1 text2),
   ("abbreviation", abbreviationCalculate p text1 text2),
   ("semantic", semanticCalculate p text1 text2),
   ("contextual", contextualCalculate text1 text2)]

/-- Concrete primitives used by witnesses: every external metric returns `0`
and the embedding model is available. -/
def constPrims : SimPrims :=
  ⟨fun _ _ => 0, fun _ _ => 0, fun _ _ => 0, fun _ _ => 0, true⟩

/-- Concrete primitives with the embedding backend unavailable
(`sentence_transformers` failed to import). -/
def noModelPrims : SimPrims :=
  ⟨fun _ _ => 0, fun _ _ => 0, fun _ _ => 0, fun _ _ => 0, false⟩

/-- Concrete primitives whose cosine similarity is the constant `c` while the
string metrics all return `0`. -/
def cosPrims (c : ℚ) : SimPrims :=
  ⟨fun _ _ => 0, fun _ _ => 0, fun _ _ => 0, fun _ _ => c, true⟩

/-- The classification rule exactly as the specification states it: fixed
boundary-inclusive cutoffs 0.95 / 0.85 / 0.70 / 0.50 on the similarity score,
with a would-be `EXACT` downgraded to `STRONG` when source and target differ
only in letter case, and — for property matches only — also when the two names
are underscore-vs-camelCase renderings of the same name. -/
def specMatchClassification (isProp : Bool) (fm : FieldMatch) : Prop :=
  fm.match_type =
    (let base :=
      if fm.similarity_result.score ≥ 95/100 then MatchType.EXACT
      else if fm.similarity_result.score ≥ 85/100 then MatchType.STRONG
      else if fm.similarity_result.score ≥ 70/100 then MatchType.MODERATE
      else if fm.similarity_result.score ≥ 50/100 then MatchType.WEAK
      else MatchType.NO_MATCH
    if ((pyLower fm.source_field = pyLower fm.target_field ∧
          fm.source_field ≠ fm.target_field) ∨
        (isProp = true ∧
          isUnderscoreToCamelcase fm.source_field fm.target_field = true)) ∧
       base = MatchType.EXACT
    then MatchType.STRONG else base)

/-- The `FieldMatch` records inside one node match: the label match (when
present) followed by the property matches. -/
def nodeMatchFieldMatches (nm : NodeMatch) : List FieldMatch :=
  (match nm.label_match with
   | some lm => [lm]
   | none => []) ++ nm.property_matches

/-- The `FieldMatch` records inside one relationship match. -/
def relationshipMatchFieldMatches (rm : RelationshipMatch) : List FieldMatch :=
  (match rm.type_match with
   | some tm => [tm]
   | none => []) ++ rm.property_matches

/-- Every `FieldMatch` a whole schema comparison produces. -/
def allFieldMatches (r : MatchResults) : List FieldMatch :=
  r.node_matches.flatMap nodeMatchFieldMatches ++
    r.relationship_matches.flatMap relationshipMatchFieldMatches

/-- Concrete primitives whose Jaro-Winkler metric is constantly `1` (all other
metrics `0`, model available). -/
def jwOnePrims : SimPrims :=
  ⟨fun _ _ => 0, fun _ _ => 1, fun _ _ => 0, fun _ _ => 0, true⟩

/-- Witness fixture: a customer `Account` node carrying one abbreviated
property. -/
def custAcctNode : Node :=
  ⟨"(:Account)", "Account", [], [], [], [⟨"ACCT_NUM", ["string"], false⟩], none⟩

/-- Witness fixture: a customer `Customer` node with no properties. -/
def custCustomerNode : Node :=
  ⟨"(:Customer)", "Customer", [], [], [], [], none⟩

/-- Witness fixture: the standard `Account` node with one mandatory and one
optional property. -/
def stdAcctNode : Node :=
  ⟨"(:Account)", "Account", [], [], [],
   [⟨"accountNumber", ["string"], true⟩, ⟨"closedDate", ["string"], false⟩], none⟩

/-- Witness fixture: the standard `Customer` node. -/
def stdCustomerNode : Node :=
  ⟨"(:Customer)", "Customer", [], [], [], [], none⟩

/-- Witness fixture: a customer node unrelated to every standard node. -/
def zzzNode : Node :=
  ⟨"(:ZZZ_UNKNOWN)", "ZZZ_UNKNOWN", [], [], [],
   [⟨"xfield", ["string"], false⟩], none⟩

/-- Witness fixture: the customer schema with two matching nodes. -/
def witnessCustomerSchema : GraphSchema := ⟨[custAcctNode, custCustomerNode], []⟩

/-- Witness fixture: the standard schema with two nodes. -/
def witnessStandardSchema : GraphSchema := ⟨[stdAcctNode, stdCustomerNode], []⟩

/-- Witness fixture: the field matcher with the adaptive engine over
[jwOnePrims] at the default threshold. -/
def witnessMatcher : FieldMatcher := mkFieldMatcher jwOnePrims true (7/10)

/-- Concrete calculator registry with one healthy and one raising technique. -/
def c6Calcs : List (String × RaisingCalc) :=
  [("good", fun _ _ => Except.ok ⟨1, 1, "good", []⟩),
   ("bad", fun _ _ => Except.error "boom")]

/-- Concrete weights for [c6Calcs]. -/
def c6Weights : List (String × ℚ) :=
  [("good", 1/2), ("bad", 1/2)]

/-- The adaptive weight vector under the short/abbreviation guard without the
camelCase adjustment: the four shifts applied to the defaults, unchanged by the
normalization because the shifts cancel and the total stays `1`. -/
def awAbbrev : List (String × ℚ) :=
  [("levenshtein", 1/10), ("jaro_winkler", 1/5), ("fuzzy", 3/10),
   ("abbreviation", 9/20), ("semantic", -(1/20)), ("contextual", 0)]

/-- As [awAbbrev] with the camelCase adjustment (fuzzy `+0.05`,
levenshtein `-0.05`) also applied. -/
def awAbbrevCamel : List (String × ℚ) :=
  [("levenshtein", 1/20), ("jaro_winkler", 1/5), ("fuzzy", 7/20),
   ("abbreviation", 9/20), ("semantic", -(1/20)), ("contextual", 0)]

/-! ## Lemmas about the greedy selection loop -/


section SelectLoop

variable {α : Type} (key : α → String) (engine : Engine) (threshold : ℚ)
  (track : Bool) (src : String) (used : List String)

/-- Abbreviation for the score the loop assigns a target. -/
@[reducible] def selScore (t : α) : ℚ := (engine src (key t)).score

/-- The candidates one loop step appends. -/
@[reducible] def stepCands (st : SelState α) (t : α) : List (α × ℚ) :=
  if track then st.cands ++ [(t, selScore key engine src t)] else st.cands

lemma selStep_of_used (st : SelState α) (t : α)
    (h : used.contains (key t) = true) :
    selStep key engine threshold track src used st t = st := by
  unfold selStep
  rw [if_pos h]

lemma selStep_of_pick (st : SelState α) (t : α)
    (h : used.contains (key t) = false)
    (h2 : selScore key engine src t > st.bestScore ∧
          selScore key engine src t ≥ threshold) :
    selStep key engine threshold track src used st t =
      ⟨some t, selScore key engine src t, stepCands key engine track src st t⟩ := by
  unfold selStep
  rw [if_neg (by rw [h]; exact Bool.false_ne_true), if_pos h2]

lemma selStep_of_skip (st : SelState α) (t : α)
    (h : used.contains (key t) = false)
    (h2 : ¬ (selScore key engine src t > st.bestScore ∧
             selScore key engine src t ≥ threshold)) :
    selStep key engine threshold track src used st t =
      ⟨st.best, st.bestScore, stepCands key engine track src st t⟩ := by
  unfold selStep
  rw [if_neg (by rw [h]; exact Bool.false_ne_true), if_neg h2]

lemma selStep_bestScore_le (st : SelState α) (t : α) :
    st.bestScore ≤ (selStep key engine threshold track src used st t).bestScore := by
  rcases Bool.eq_false_or_eq_true (used.contains (key t)) with hc | hc
  · rw [selStep_of_used key engine threshold track src used st t hc]
  · by_cases hp : selScore key engine src t > st.bestScore ∧
        selScore key engine src t ≥ threshold
    · rw [selStep_of_pick key engine threshold track src used st t hc hp]
      exact le_of_lt hp.1
    · rw [selStep_of_skip key engine threshold track src used st t hc hp]

lemma selFold_bestScore_le (ts : List α) :
    ∀ st : SelState α,
      st.bestScore ≤ (ts.foldl (selStep key engine threshold track src used) st).bestScore := by
  induction ts with
  | nil => intro st; exact le_refl _
  | cons t0 rest ih =>
      intro st
      simp only [List.foldl_cons]
      exact le_trans (selStep_bestScore_le key engine threshold track src used st t0) (ih _)

/-- If every unused target scores strictly below the threshold, the fold never
updates the best match or the best score. -/
lemma selFold_no_candidate (ts : List α) :
    ∀ st : SelState α,
      (∀ u ∈ ts, used.contains (key u) = false → selScore key engine src u < threshold) →
      (ts.foldl (selStep key engine threshold track src used) st).best = st.best ∧
      (ts.foldl (selStep key engine threshold track src used) st).bestScore = st.bestScore := by
  induction ts with
  | nil => intro st _; exact ⟨rfl, rfl⟩
  | cons t0 rest ih =>
      intro st hlt
      have htail := ih (selStep key engine threshold track src used st t0)
        (fun u hu h => hlt u (List.mem_cons_of_mem t0 hu) h)
      have hstep : (selStep key engine threshold track src used st t0).best = st.best ∧
          (selStep key engine threshold track src used st t0).bestScore = st.bestScore := by
        rcases Bool.eq_false_or_eq_true (used.contains (key t0)) with hc | hc
        · rw [selStep_of_used key engine threshold track src used st t0 hc]
          exact ⟨rfl, rfl⟩
        · have hbad : ¬ (selScore key engine src t0 > st.bestScore ∧
              selScore key engine src t0 ≥ threshold) := by
            intro hp
            exact absurd hp.2
              (not_le.mpr (hlt t0 (List.mem_cons_self t0 rest) hc))
          rw [selStep_of_skip key engine threshold track src used st t0 hc hbad]
          exact ⟨rfl, rfl⟩
      simp only [List.foldl_cons]
      exact ⟨htail.1.trans hstep.1, htail.2.trans hstep.2⟩

/-- The tracked candidates are exactly the unused targets, in iteration order,
paired with their scores. -/
lemma selFold_cands (ts : List α) :
    ∀ st : SelState α,
      (ts.foldl (selStep key engine threshold track src used) st).cands =
        st.cands ++ (if track then
          (ts.filter (fun t => ¬ used.contains (key t))).map
            (fun t => (t, selScore key engine src t))
        else []) := by
  induction ts with
  | nil => intro st; simp
  | cons t0 rest ih =>
      intro st
      simp only [List.foldl_cons]
      rw [ih]
      rcases Bool.eq_false_or_eq_true (used.contains (key t0)) with hc | hc
      · have hm : key t0 ∈ used := List.elem_iff.mp hc
        rw [selStep_of_used key engine threshold track src used st t0 hc]
        simp [List.filter_cons, hm]
      · have hm : key t0 ∉ used := by simpa using hc
        have hcands : (selStep key engine threshold track src used st t0).cands =
            stepCands key engine track src st t0 := by
          by_cases hp : selScore key engine src t0 > st.bestScore ∧
              selScore key engine src t0 ≥ threshold
          · rw [selStep_of_pick key engine threshold track src used st t0 hc hp]
          · rw [selStep_of_skip key engine threshold track src used st t0 hc hp]
        rw [hcands]
        unfold stepCands
        rcases Bool.eq_false_or_eq_true track with htr | htr <;>
          simp [htr, List.filter_cons, hm, selScore]

/-- Characterization of a successful selection: either the initial state already
held this best match (with unchanged score), or the winner is the first
unused element attaining the final best score, which meets the threshold and
strictly exceeds every unused element appearing before it. -/
lemma selFold_best_some (ts : List α) :
    ∀ (st : SelState α) (t : α),
      (ts.foldl (selStep key engine threshold track src used) st).best = some t →
      (st.best = some t ∧
        (ts.foldl (selStep key engine threshold track src used) st).bestScore = st.bestScore) ∨
      (∃ pre post, ts = pre ++ t :: post ∧ used.contains (key t) = false ∧
        (ts.foldl (selStep key engine threshold track src used) st).bestScore =
          selScore key engine src t ∧
        selScore key engine src t ≥ threshold ∧
        st.bestScore < selScore key engine src t ∧
        ∀ u ∈ pre, used.contains (key u) = false →
          selScore key engine src u < selScore key engine src t) := by
  induction ts with
  | nil => intro st t h; exact Or.inl ⟨h, rfl⟩
  | cons t0 rest ih =>
      intro st t h
      simp only [List.foldl_cons] at h ⊢
      rcases Bool.eq_false_or_eq_true (used.contains (key t0)) with hc | hc
      · -- t0 is used: the step is the identity
        rw [selStep_of_used key engine threshold track src used st t0 hc] at h ⊢
        rcases ih st t h with hl | ⟨pre, post, hdec, hunused, hscore, hthr, hgt, hpre⟩
        · exact Or.inl hl
        · right
          refine ⟨t0 :: pre, post, by rw [hdec]; rfl, hunused, hscore, hthr, hgt, ?_⟩
          intro u hu huu
          rcases List.mem_cons.mp hu with hu0 | hupre
          · subst hu0; rw [huu] at hc; exact absurd hc Bool.false_ne_true
          · exact hpre u hupre huu
      · by_cases hp : selScore key engine src t0 > st.bestScore ∧
            selScore key engine src t0 ≥ threshold
        · -- t0 is picked at this step
          rw [selStep_of_pick key engine threshold track src used st t0 hc hp] at h ⊢
          rcases ih _ t h with ⟨hbest, hscore⟩ |
            ⟨pre, post, hdec, hunused, hscore, hthr, hgt, hpre⟩
          · -- nothing in `rest` displaced t0, so t = t0 heads the list
            have ht0 : t0 = t := Option.some.inj hbest
            subst ht0
            right
            exact ⟨[], rest, rfl, hc, hscore, hp.2, hp.1,
              fun u hu _ => absurd hu (List.not_mem_nil u)⟩
          · -- the final best was found inside `rest`
            right
            refine ⟨t0 :: pre, post, by rw [hdec]; rfl, hunused, hscore, hthr,
              lt_trans hp.1 hgt, ?_⟩
            intro u hu huu
            rcases List.mem_cons.mp hu with hu0 | hupre
            · subst hu0; exact hgt
            · exact hpre u hupre huu
        · -- t0 is skipped: best and bestScore pass through
          rw [selStep_of_skip key engine threshold track src used st t0 hc hp] at h ⊢
          rcases ih _ t h with ⟨hbest, hscore⟩ |
            ⟨pre, post, hdec, hunused, hscore, hthr, hgt, hpre⟩
          · exact Or.inl ⟨hbest, hscore⟩
          · right
            refine ⟨t0 :: pre, post, by rw [hdec]; rfl, hunused, hscore, hthr, hgt, ?_⟩
            intro u hu huu
            rcases List.mem_cons.mp hu with hu0 | hupre
            · subst hu0
              rcases not_and_or.mp hp with hle | hltthr
              · exact lt_of_le_of_lt (not_lt.mp hle) hgt
              · exact lt_of_lt_of_le (not_le.mp hltthr) hthr
            · exact hpre u hupre huu

/-- Every unused target's score is bounded by the final best score, unless it
falls below the threshold. -/
lemma selFold_score_bound (ts : List α) :
    ∀ (st : SelState α) (u : α), u ∈ ts → used.contains (key u) = false →
      selScore key engine src u ≤
        (ts.foldl (selStep key engine threshold track src used) st).bestScore ∨
      selScore key engine src u < threshold := by
  induction ts with
  | nil => intro st u hu; exact absurd hu (List.not_mem_nil u)
  | cons t0 rest ih =>
      intro st u hu huu
      simp only [List.foldl_cons]
      rcases List.mem_cons.mp hu with hu0 | hurest
      · subst hu0
        by_cases hp : selScore key engine src u > st.bestScore ∧
            selScore key engine src u ≥ threshold
        · left
          have hstep : (selStep key engine threshold track src used st u).bestScore =
              selScore key engine src u := by
            rw [selStep_of_pick key engine threshold track src used st u huu hp]
          calc selScore key engine src u
              = (selStep key engine threshold track src used st u).bestScore := hstep.symm
            _ ≤ _ := selFold_bestScore_le key engine threshold track src used rest _
        · rcases not_and_or.mp hp with hle | hltthr
          · left
            have hstep : (selStep key engine threshold track src used st u).bestScore =
                st.bestScore := by
              rw [selStep_of_skip key engine threshold track src used st u huu hp]
            calc selScore key engine src u ≤ st.bestScore := not_lt.mp hle
              _ = (selStep key engine threshold track src used st u).bestScore := hstep.symm
              _ ≤ _ := selFold_bestScore_le key engine threshold track src used rest _
          · exact Or.inr (not_le.mp hltthr)
      · exact ih _ u hurest huu

/-- Instantiation of the above at the loop's actual initial state. -/
lemma selectLoop_best_some (ts : List α) (t : α)
    (h : (selectLoop key engine threshold track src ts used).best = some t) :
    ∃ pre post, ts = pre ++ t :: post ∧ used.contains (key t) = false ∧
      (selectLoop key engine threshold track src ts used).bestScore =
        selScore key engine src t ∧
      selScore key engine src t ≥ threshold ∧
      0 < selScore key engine src t ∧
      ∀ u ∈ pre, used.contains (key u) = false →
        selScore key engine src u < selScore key engine src t := by
  rcases selFold_best_some key engine threshold track src used ts ⟨none, 0, []⟩ t h with
    ⟨hbest, _⟩ | ⟨pre, post, hdec, hunused, hscore, hthr, hgt, hpre⟩
  · exact absurd hbest (by simp)
  · exact ⟨pre, post, hdec, hunused, hscore, hthr, hgt, hpre⟩

end SelectLoop

/-! ## C7: compliance-level classification -/

/-- **C7**: the compliance level is a pure function of the critical-issue count
and the overall compliance score, evaluated in order: `excellent` for 0
critical and score ≥ 0.95; else `good` for 0 critical and score ≥ 0.85; else
`fair` for ≤ 2 critical and score ≥ 0.70; else `poor` for ≤ 5 critical and
score ≥ 0.50; else `critical`. -/
theorem c7_compliance_level_thresholds (score : ℚ) (criticalCount : ℕ) :
    (criticalCount = 0 ∧ score ≥ 95/100 →
      calculateComplianceLevel score criticalCount = "excellent") ∧
    (¬ (criticalCount = 0 ∧ score ≥ 95/100) →
      criticalCount = 0 ∧ score ≥ 85/100 →
      calculateComplianceLevel score criticalCount = "good") ∧
    (¬ (criticalCount = 0 ∧ score ≥ 95/100) →
      ¬ (criticalCount = 0 ∧ score ≥ 85/100) →
      criticalCount ≤ 2 ∧ score ≥ 70/100 →
      calculateComplianceLevel score criticalCount = "fair") ∧
    (¬ (criticalCount = 0 ∧ score ≥ 95/100) →
      ¬ (criticalCount = 0 ∧ score ≥ 85/100) →
      ¬ (criticalCount ≤ 2 ∧ score ≥ 70/100) →
      criticalCount ≤ 5 ∧ score ≥ 50/100 →
      calculateComplianceLevel score criticalCount = "poor") ∧
    (¬ (criticalCount = 0 ∧ score ≥ 95/100) →
      ¬ (criticalCount = 0 ∧ score ≥ 85/100) →
      ¬ (criticalCount ≤ 2 ∧ score ≥ 70/100) →
      ¬ (criticalCount ≤ 5 ∧ score ≥ 50/100) →
      calculateComplianceLevel score criticalCount = "critical") := by
  refine ⟨?_, ?_, ?_, ?_, ?_⟩
  · intro h1
    unfold calculateComplianceLevel
    rw [if_pos h1]
  · intro h1 h2
    unfold calculateComplianceLevel
    rw [if_neg h1, if_pos h2]
  · intro h1 h2 h3
    unfold calculateComplianceLevel
    rw [if_neg h1, if_neg h2, if_pos h3]
  · intro h1 h2 h3 h4
    unfold calculateComplianceLevel
    rw [if_neg h1, if_neg h2, if_neg h3, if_pos h4]
  · intro h1 h2 h3 h4
    unfold calculateComplianceLevel
    rw [if_neg h1, if_neg h2, if_neg h3, if_neg h4]

/-- Witness for C7 at concrete inputs, one per level. -/
theorem c7_compliance_level_thresholds_witness :
    calculateComplianceLevel (96/100) 0 = "excellent" ∧
    calculateComplianceLevel (9/10) 0 = "good" ∧
    calculateComplianceLevel (3/4) 2 = "fair" ∧
    calculateComplianceLevel (6/10) 4 = "poor" ∧
    calculateComplianceLevel (4/10) 9 = "critical" :=
  ⟨(c7_compliance_level_thresholds (96/100) 0).1 (by norm_num),
   (c7_compliance_level_thresholds (9/10) 0).2.1 (by norm_num) (by norm_num),
   (c7_compliance_level_thresholds (3/4) 2).2.2.1 (by norm_num) (by norm_num)
     (by norm_num),
   (c7_compliance_level_thresholds (6/10) 4).2.2.2.1 (by norm_num) (by norm_num)
     (by norm_num) (by norm_num),
   (c7_compliance_level_thresholds (4/10) 9).2.2.2.2 (by norm_num) (by norm_num)
     (by norm_num) (by norm_num)⟩

/-! ## C4: empty-input behaviour of every calculator -/

/-- **C4** (amended): on empty input every calculator returns score `0.0`,
confidence `1.0` and `metadata.reason = "empty_string"` — except the semantic
calculator constructed without an available embedding model, whose
model-availability check precedes the empty-input check, so it returns score
`0.0`, confidence `0.0` and `metadata.reason = "model_not_available"` even for
empty inputs.  No calculator raises: all are total functions of their inputs. -/
theorem c4_empty_input_behaviour (p : SimPrims) (a b : String)
    (h : a.isEmpty ∨ b.isEmpty) :
    levenshteinCalculate p a b =
      { score := 0, confidence := 1, technique := "levenshtein",
        metadata := [("reason", MetaVal.str "empty_string")] } ∧
    jaroWinklerCalculate p a b =
      { score := 0, confidence := 1, technique := "jaro_winkler",
        metadata := [("reason", MetaVal.str "empty_string")] } ∧
    fuzzyCalculate p a b =
      { score := 0, confidence := 1, technique := "fuzzy",
        metadata := [("reason", MetaVal.str "empty_string")] } ∧
    abbreviationCalculate p a b =
      { score := 0, confidence := 1, technique := "abbreviation",
        metadata := [("reason", MetaVal.str "empty_string")] } ∧
    contextualCalculate a b =
      { score := 0, confidence := 1, technique := "contextual",
        metadata := [("reason", MetaVal.str "empty_string")] } ∧
    (∀ w, compositeCalculate p w a b =
      { score := 0, confidence := 1, technique := "composite",
        metadata := [("reason", MetaVal.str "empty_string")] }) ∧
    adaptiveCalculate p a b =
      { score := 0, confidence := 1, technique := "adaptive",
        metadata := [("reason", MetaVal.str "empty_string")] } ∧
    (p.modelAvailable = true → semanticCalculate p a b =
      { score := 0, confidence := 1, technique := "semantic",
        metadata := [("reason", MetaVal.str "empty_string")] }) ∧
    (p.modelAvailable = false → semanticCalculate p a b =
      { score := 0, confidence := 0, technique := "semantic",
        metadata := [("reason", MetaVal.str "model_not_available")] }) := by
  refine ⟨?_, ?_, ?_, ?_, ?_, ?_, ?_, ?_, ?_⟩
  · unfold levenshteinCalculate
    rw [if_pos h]
    rfl
  · unfold jaroWinklerCalculate
    rw [if_pos h]
    rfl
  · unfold fuzzyCalculate
    rw [if_pos h]
    rfl
  · unfold abbreviationCalculate
    rw [if_pos h]
    rfl
  · unfold contextualCalculate
    rw [if_pos h]
    rfl
  · intro w
    unfold compositeCalculate
    rw [if_pos h]
  · unfold adaptiveCalculate
    rw [if_pos h]
  · intro hm
    unfold semanticCalculate
    rw [if_neg (not_not_intro hm), if_pos h]
    rfl
  · intro hm
    unfold semanticCalculate
    rw [if_pos (by rw [hm]; exact Bool.false_ne_true)]

/-- Witness for C4 at the concrete pair `("", "anything")`. -/
theorem c4_empty_input_behaviour_witness :
    levenshteinCalculate constPrims "" "anything" =
      { score := 0, confidence := 1, technique := "levenshtein",
        metadata := [("reason", MetaVal.str "empty_string")] } ∧
    semanticCalculate constPrims "" "anything" =
      { score := 0, confidence := 1, technique := "semantic",
        metadata := [("reason", MetaVal.str "empty_string")] } ∧
    adaptiveCalculate constPrims "" "anything" =
      { score := 0, confidence := 1, technique := "adaptive",
        metadata := [("reason", MetaVal.str "empty_string")] } :=
  ⟨(c4_empty_input_behaviour constPrims "" "anything" (Or.inl rfl)).1,
   (c4_empty_input_behaviour constPrims "" "anything" (Or.inl rfl)).2.2.2.2.2.2.2.1 rfl,
   (c4_empty_input_behaviour constPrims "" "anything" (Or.inl rfl)).2.2.2.2.2.2.1⟩

/-- **C4, counterexample**: the claim as stated is false for the semantic
calculator when the embedding model is unavailable — on the empty-input pair
`("", "anything")` it returns confidence `0.0` (not `1.0`) and reason
`model_not_available` (not `empty_string`). -/
theorem c4_counterexample :
    (semanticCalculate noModelPrims "" "anything").confidence ≠ 1 ∧
    (semanticCalculate noModelPrims "" "anything").confidence = 0 ∧
    getKey (semanticCalculate noModelPrims "" "anything").metadata "reason" =
      some (MetaVal.str "model_not_available") := by
  have hconf : (semanticCalculate noModelPrims "" "anything").confidence = 0 := rfl
  refine ⟨?_, hconf, rfl⟩
  rw [hconf]
  norm_num

/-! ## Characterization of the composite loop -/

lemma dictInsert_fresh (l : List (String × SimilarityResult)) (k : String)
    (v : SimilarityResult) (h : ∀ kv ∈ l, kv.1 ≠ k) :
    dictInsert l k v = l ++ [(k, v)] := by
  unfold dictInsert
  have hany : l.any (fun kv => kv.1 = k) = false := by
    rw [List.any_eq_false]
    intro kv hkv
    simpa using h kv hkv
  rw [hany]
  simp

lemma compositeLoop_foldl (cw : List (String × ℚ)) (a b : String) :
    ∀ (calcs : List (String × RaisingCalc))
      (res : List (String × SimilarityResult)) (s c : ℚ),
      (calcs.map Prod.fst).Nodup →
      (∀ nc ∈ calcs, ∀ kv ∈ res, kv.1 ≠ nc.1) →
      calcs.foldl (compositeStep cw a b) (res, s, c) =
        (res ++ calcs.map (absorbCalc a b),
         s + (calcs.map
           (fun nc => (absorbCalc a b nc).2.score * weightOf cw nc.1)).sum,
         c + (calcs.map (confContrib cw a b)).sum) := by
  intro calcs
  induction calcs with
  | nil => intro res s c _ _; simp
  | cons nc rest ih =>
      intro res s c hnodup hfresh
      simp only [List.map_cons, List.nodup_cons] at hnodup
      have hfresh0 : ∀ kv ∈ res, kv.1 ≠ nc.1 :=
        hfresh nc (List.mem_cons_self nc rest)
      simp only [List.foldl_cons, List.map_cons, List.sum_cons]
      cases hab : nc.2 a b with
      | ok r =>
          have hstep : compositeStep cw a b (res, s, c) nc =
              (res ++ [(nc.1, r)],
               s + r.score * weightOf cw nc.1,
               c + r.confidence * weightOf cw nc.1) := by
            unfold compositeStep
            rw [hab]
            dsimp only
            rw [dictInsert_fresh res nc.1 r hfresh0]
          rw [hstep]
          have habs : absorbCalc a b nc = (nc.1, r) := by
            unfold absorbCalc
            rw [hab]
          have hconf : confContrib cw a b nc = r.confidence * weightOf cw nc.1 := by
            unfold confContrib
            rw [hab]
          rw [ih (res ++ [(nc.1, r)]) _ _ hnodup.2 ?_]
          · rw [habs, hconf]
            refine Prod.ext ?_ (Prod.ext ?_ ?_)
            · simp
            · simp only []
              ring
            · simp only []
              ring
          · intro mc hmc kv hkv
            rcases List.mem_append.mp hkv with hres | hone
            · exact hfresh mc (List.mem_cons_of_mem nc hmc) kv hres
            · have hkv1 : kv = (nc.1, r) := by simpa using hone
              rw [hkv1]
              intro hcontra
              exact hnodup.1 (hcontra ▸ List.mem_map_of_mem Prod.fst hmc)
      | error e =>
          have hstep : compositeStep cw a b (res, s, c) nc =
              (res ++ [(nc.1, errorResult nc.1 e)], s, c) := by
            unfold compositeStep
            rw [hab]
            dsimp only
            rw [dictInsert_fresh res nc.1 (errorResult nc.1 e) hfresh0]
          rw [hstep]
          have habs : absorbCalc a b nc = (nc.1, errorResult nc.1 e) := by
            unfold absorbCalc
            rw [hab]
          have hconf : confContrib cw a b nc = 0 := by
            unfold confContrib
            rw [hab]
          rw [ih (res ++ [(nc.1, errorResult nc.1 e)]) _ _ hnodup.2 ?_]
          · rw [habs, hconf]
            refine Prod.ext ?_ (Prod.ext ?_ ?_)
            · simp
            · simp only [errorResult]
              ring
            · simp only []
              ring
          · intro mc hmc kv hkv
            rcases List.mem_append.mp hkv with hres | hone
            · exact hfresh mc (List.mem_cons_of_mem nc hmc) kv hres
            · have hkv1 : kv = (nc.1, errorResult nc.1 e) := by simpa using hone
              rw [hkv1]
              intro hcontra
              exact hnodup.1 (hcontra ▸ List.mem_map_of_mem Prod.fst hmc)

lemma compositeLoop_eq (calcs : List (String × RaisingCalc))
    (cw : List (String × ℚ)) (a b : String)
    (h : (calcs.map Prod.fst).Nodup) :
    compositeLoop calcs cw a b =
      (calcs.map (absorbCalc a b),
       (calcs.map (fun nc => (absorbCalc a b nc).2.score * weightOf cw nc.1)).sum,
       (calcs.map (confContrib cw a b)).sum) := by
  unfold compositeLoop
  have hres := compositeLoop_foldl cw a b calcs [] 0 0 h
    (fun nc _ kv hkv => absurd hkv (List.not_mem_nil kv))
  simpa using hres

lemma compositeCombine_score (calcs : List (String × RaisingCalc))
    (cw : List (String × ℚ)) (nm a b : String)
    (h : (calcs.map Prod.fst).Nodup) :
    (compositeCombine calcs cw nm a b).score =
      min 1 ((calcs.map
          (fun nc => (absorbCalc a b nc).2.score * weightOf cw nc.1)).sum +
        min (15/100)
          ((((calcs.map (absorbCalc a b)).countP
              (fun kv => kv.2.score ≥ 8/10)) : ℚ) * (5/100))) := by
  unfold compositeCombine
  rw [compositeLoop_eq calcs cw a b h]

lemma compositeCombine_confidence (calcs : List (String × RaisingCalc))
    (cw : List (String × ℚ)) (nm a b : String)
    (h : (calcs.map Prod.fst).Nodup) :
    (compositeCombine calcs cw nm a b).confidence =
      min 1 (calcs.map (confContrib cw a b)).sum := by
  unfold compositeCombine
  rw [compositeLoop_eq calcs cw a b h]

lemma compositeLoop_results (calcs : List (String × RaisingCalc))
    (cw : List (String × ℚ)) (a b : String)
    (h : (calcs.map Prod.fst).Nodup) :
    (compositeLoop calcs cw a b).1 = calcs.map (absorbCalc a b) := by
  rw [compositeLoop_eq calcs cw a b h]

lemma weightOf_nonneg (w : List (String × ℚ)) (h : ∀ kv ∈ w, 0 ≤ kv.2)
    (n : String) : 0 ≤ weightOf w n := by
  unfold weightOf
  cases hf : w.find? (fun kv => kv.1 = n) with
  | none => simp
  | some kv =>
      simp only [Option.map_some', Option.getD_some]
      exact h kv (List.mem_of_find?_eq_some hf)

lemma sixCalculators_names_nodup (p : SimPrims) :
    ((sixCalculators p).map Prod.fst).Nodup := by
  show (["levenshtein", "jaro_winkler", "fuzzy", "abbreviation", "semantic",
         "contextual"] : List String).Nodup
  decide

lemma sixCalculators_absorb (p : SimPrims) (a b : String) :
    (sixCalculators p).map (absorbCalc a b) = sixResults p a b := rfl

/-! ## C5: the composite weighted-sum formula -/

/-- **C5**: for non-empty inputs the composite score is the weighted sum of the
six technique scores plus the consistency bonus
`min(0.15, 0.05 × number of techniques scoring ≥ 0.8)`, capped at `1`; the
confidence is the capped weighted sum of the technique confidences.  When the
weights are non-negative and the technique results lie in `[0,1]` (as they do
for the composite's own weight vector), the `min 1` cap coincides with clamping
both values to `[0,1]`. -/
theorem c5_composite_weighted_sum (p : SimPrims) (w : Option (List (String × ℚ)))
    (a b : String) (ha : a.isEmpty = false) (hb : b.isEmpty = false) :
    (compositeCalculate p w a b).score =
      min 1 (((sixResults p a b).map
          (fun nr => nr.2.score * weightOf (w.getD defaultWeights) nr.1)).sum +
        min (15/100)
          ((((sixResults p a b).countP (fun nr => nr.2.score ≥ 8/10)) : ℚ) *
            (5/100))) ∧
    (compositeCalculate p w a b).confidence =
      min 1 ((sixResults p a b).map
          (fun nr => nr.2.confidence * weightOf (w.getD defaultWeights) nr.1)).sum ∧
    ((∀ kv ∈ w.getD defaultWeights, 0 ≤ kv.2) →
      (∀ nr ∈ sixResults p a b, 0 ≤ nr.2.score ∧ 0 ≤ nr.2.confidence) →
      0 ≤ (compositeCalculate p w a b).score ∧
      (compositeCalculate p w a b).score ≤ 1 ∧
      0 ≤ (compositeCalculate p w a b).confidence ∧
      (compositeCalculate p w a b).confidence ≤ 1) := by
  have hne : ¬ (a.isEmpty ∨ b.isEmpty) := by
    rintro (hh | hh)
    · rw [ha] at hh
      exact Bool.false_ne_true hh
    · rw [hb] at hh
      exact Bool.false_ne_true hh
  have hcomp : compositeCalculate p w a b =
      compositeCombine (sixCalculators p) (w.getD defaultWeights) "composite" a b := by
    unfold compositeCalculate
    rw [if_neg hne]
  have hscore : (compositeCalculate p w a b).score =
      min 1 (((sixResults p a b).map
          (fun nr => nr.2.score * weightOf (w.getD defaultWeights) nr.1)).sum +
        min (15/100)
          ((((sixResults p a b).countP (fun nr => nr.2.score ≥ 8/10)) : ℚ) *
            (5/100))) := by
    rw [hcomp, compositeCombine_score _ _ _ _ _ (sixCalculators_names_nodup p)]
    rfl
  have hconf : (compositeCalculate p w a b).confidence =
      min 1 ((sixResults p a b).map
          (fun nr => nr.2.confidence * weightOf (w.getD defaultWeights) nr.1)).sum := by
    rw [hcomp, compositeCombine_confidence _ _ _ _ _ (sixCalculators_names_nodup p)]
    rfl
  refine ⟨hscore, hconf, ?_⟩
  intro hw hr
  have hsum_score : 0 ≤ ((sixResults p a b).map
      (fun nr => nr.2.score * weightOf (w.getD defaultWeights) nr.1)).sum := by
    apply List.sum_nonneg
    intro x hx
    obtain ⟨nr, hnr, rfl⟩ := List.mem_map.mp hx
    exact mul_nonneg (hr nr hnr).1 (weightOf_nonneg _ hw _)
  have hsum_conf : 0 ≤ ((sixResults p a b).map
      (fun nr => nr.2.confidence * weightOf (w.getD defaultWeights) nr.1)).sum := by
    apply List.sum_nonneg
    intro x hx
    obtain ⟨nr, hnr, rfl⟩ := List.mem_map.mp hx
    exact mul_nonneg (hr nr hnr).2 (weightOf_nonneg _ hw _)
  have hbonus : (0:ℚ) ≤ min (15/100)
      ((((sixResults p a b).countP (fun nr => nr.2.score ≥ 8/10)) : ℚ) * (5/100)) := by
    apply le_min (by norm_num)
    positivity
  refine ⟨?_, ?_, ?_, ?_⟩
  · rw [hscore]
    exact le_min (by norm_num) (add_nonneg hsum_score hbonus)
  · rw [hscore]
    exact min_le_left _ _
  · rw [hconf]
    exact le_min (by norm_num) hsum_conf
  · rw [hconf]
    exact min_le_left _ _

/-- Witness for C5 at concrete non-empty inputs. -/
theorem c5_composite_weighted_sum_witness :
    (compositeCalculate constPrims none "ACCT" "Account").score =
      min 1 (((sixResults constPrims "ACCT" "Account").map
          (fun nr => nr.2.score * weightOf defaultWeights nr.1)).sum +
        min (15/100)
          ((((sixResults constPrims "ACCT" "Account").countP
              (fun nr => nr.2.score ≥ 8/10)) : ℚ) * (5/100))) ∧
    0 ≤ (compositeCalculate constPrims none "ACCT" "Account").score ∧
    (compositeCalculate constPrims none "ACCT" "Account").score ≤ 1 :=
  ⟨(c5_composite_weighted_sum constPrims none "ACCT" "Account" rfl rfl).1,
   ((c5_composite_weighted_sum constPrims none "ACCT" "Account" rfl rfl).2.2
      (by decide) (by decide)).1,
   ((c5_composite_weighted_sum constPrims none "ACCT" "Account" rfl rfl).2.2
      (by decide) (by decide)).2.1⟩

/-! ## C6: per-technique exception absorption -/

/-- **C6**: a raising technique never aborts the composite calculation.  The
results dict records, for each registered calculator, its own result on
success and the absorbed placeholder — score `0.0`, confidence `0.1`, the
error message under the `error` metadata key — when it raises; every remaining
technique still contributes `score × weight` to the capped weighted sum; the
combined calculation is a total function (it always returns a
`SimilarityResult`), and the real composite delegates to it on every pair of
non-empty inputs. -/
theorem c6_exception_absorption (calcs : List (String × RaisingCalc))
    (cw : List (String × ℚ)) (nm a b : String)
    (h : (calcs.map Prod.fst).Nodup) :
    (compositeLoop calcs cw a b).1 = calcs.map (absorbCalc a b) ∧
    (∀ nc ∈ calcs, ∀ e, nc.2 a b = Except.error e →
      ((nc.1, { score := 0, confidence := 1/10, technique := nc.1,
                metadata := [("error", MetaVal.str e)] }) :
          String × SimilarityResult) ∈ (compositeLoop calcs cw a b).1) ∧
    (compositeCombine calcs cw nm a b).score =
      min 1 ((calcs.map
          (fun nc => (absorbCalc a b nc).2.score * weightOf cw nc.1)).sum +
        min (15/100) ((((calcs.map (absorbCalc a b)).countP
            (fun kv => kv.2.score ≥ 8/10)) : ℚ) * (5/100))) ∧
    (compositeCombine calcs cw nm a b).technique = nm := by
  refine ⟨compositeLoop_results calcs cw a b h, ?_, ?_, ?_⟩
  · intro nc hnc e hab
    rw [compositeLoop_results calcs cw a b h]
    have habs : absorbCalc a b nc =
        (nc.1, { score := 0, confidence := 1/10, technique := nc.1,
                 metadata := [("error", MetaVal.str e)] }) := by
      unfold absorbCalc
      rw [hab]
      rfl
    rw [← habs]
    exact List.mem_map_of_mem (absorbCalc a b) hnc
  · exact compositeCombine_score calcs cw nm a b h
  · unfold compositeCombine
    rfl

/-- Witness for C6: a registry with one healthy and one raising technique. -/
theorem c6_exception_absorption_witness :
    (("bad", { score := 0, confidence := 1/10, technique := "bad",
               metadata := [("error", MetaVal.str "boom")] }) :
        String × SimilarityResult) ∈ (compositeLoop c6Calcs c6Weights "x" "y").1 ∧
    (compositeCombine c6Calcs c6Weights "composite" "x" "y").score = 11/20 := by
  have h := c6_exception_absorption c6Calcs c6Weights "composite" "x" "y" (by decide)
  refine ⟨?_, ?_⟩
  · exact h.2.1 ("bad", fun _ _ => Except.error "boom")
      (by unfold c6Calcs; exact List.mem_cons_of_mem _ (List.mem_cons_self _ _))
      "boom" rfl
  · rw [h.2.2.1]
    rfl

/-! ## Matcher invariants used by several claims -/

/-- The label/type path computes exactly the spec's classification rule
(no underscore-camelCase test on this path). -/
lemma specClass_of_entity (fm : FieldMatch)
    (h : fm.match_type =
      if (pyLower fm.source_field = pyLower fm.target_field ∧
            fm.source_field ≠ fm.target_field) ∧
          classifyMatchType fm.similarity_result.score = MatchType.EXACT
      then MatchType.STRONG
      else classifyMatchType fm.similarity_result.score) :
    specMatchClassification false fm := by
  show fm.match_type =
    (if ((pyLower fm.source_field = pyLower fm.target_field ∧
            fm.source_field ≠ fm.target_field) ∨
          ((false : Bool) = true ∧
            isUnderscoreToCamelcase fm.source_field fm.target_field = true)) ∧
        classifyMatchType fm.similarity_result.score = MatchType.EXACT
     then MatchType.STRONG
     else classifyMatchType fm.similarity_result.score)
  rw [h]
  refine if_congr ?_ rfl rfl
  simp

/-- The property path computes exactly the spec's classification rule
(underscore-camelCase and case-only downgrades). -/
lemma specClass_of_property (fm : FieldMatch)
    (h : fm.match_type =
      if (isUnderscoreToCamelcase fm.source_field fm.target_field = true ∨
          (pyLower fm.source_field = pyLower fm.target_field ∧
            fm.source_field ≠ fm.target_field)) ∧
          classifyMatchType fm.similarity_result.score = MatchType.EXACT
      then MatchType.STRONG
      else classifyMatchType fm.similarity_result.score) :
    specMatchClassification true fm := by
  show fm.match_type =
    (if ((pyLower fm.source_field = pyLower fm.target_field ∧
            fm.source_field ≠ fm.target_field) ∨
          ((true : Bool) = true ∧
            isUnderscoreToCamelcase fm.source_field fm.target_field = true)) ∧
        classifyMatchType fm.similarity_result.score = MatchType.EXACT
     then MatchType.STRONG
     else classifyMatchType fm.similarity_result.score)
  rw [h]
  refine if_congr ?_ rfl rfl
  constructor
  · rintro ⟨hu | hc, hb⟩
    · exact ⟨Or.inr ⟨rfl, hu⟩, hb⟩
    · exact ⟨Or.inl hc, hb⟩
  · rintro ⟨hc | ⟨_, hu⟩, hb⟩
    · exact ⟨Or.inr hc, hb⟩
    · exact ⟨Or.inl hu, hb⟩

/-- Structural invariants of every property `FieldMatch` the property pass
produces: its similarity result is a fresh engine calculation on its own
source/target pair, its technique contributions come from
`_extract_technique_contributions`, and its match type follows the spec's
classification rule for properties. -/
lemma matchPropertiesGo_invariants (m : FieldMatcher)
    (stdProps : List PropertyDefinition) :
    ∀ (custProps : List PropertyDefinition) (used : List String),
      ∀ fm ∈ (matchPropertiesGo m stdProps custProps used).1,
        fm.similarity_result = m.engine fm.source_field fm.target_field ∧
        fm.technique_contributions =
          extractTechniqueContributions fm.similarity_result ∧
        specMatchClassification true fm := by
  intro custProps
  induction custProps with
  | nil =>
      intro used fm hfm
      simp [matchPropertiesGo] at hfm
  | cons cp rest ih =>
      intro used fm hfm
      rw [matchPropertiesGo] at hfm
      cases hbest : (selectLoop PropertyDefinition.property m.engine
          m.similarity_threshold false cp.property stdProps used).best with
      | none =>
          rw [hbest] at hfm
          exact ih used fm hfm
      | some t =>
          rw [hbest] at hfm
          simp only [List.mem_cons] at hfm
          rcases hfm with hfm | hfm
          · subst hfm
            obtain ⟨_, _, _, hunused, hscore, _, _, _⟩ :=
              selectLoop_best_some PropertyDefinition.property m.engine
                m.similarity_threshold false cp.property used stdProps t hbest
            refine ⟨rfl, rfl, ?_⟩
            apply specClass_of_property
            show (if (isUnderscoreToCamelcase cp.property t.property = true ∨
                (pyLower cp.property = pyLower t.property ∧
                  cp.property ≠ t.property)) ∧
                classifyMatchType (selectLoop PropertyDefinition.property m.engine
                  m.similarity_threshold false cp.property stdProps used).bestScore =
                  MatchType.EXACT
              then MatchType.STRONG
              else classifyMatchType (selectLoop PropertyDefinition.property m.engine
                m.similarity_threshold false cp.property stdProps used).bestScore) = _
            rw [hscore]
          · exact ih (t.property :: used) fm hfm

/-- Structural invariants of every node match the node pass produces: the label
match (when present) carries a fresh engine result, extracted contributions and
the spec classification; every property match satisfies the property
invariants; a chosen target met the threshold; an unmatched node has the empty
record shape with confidence `0`. -/
lemma matchNodesGo_invariants (m : FieldMatcher) (std : List Node) :
    ∀ (cust : List Node) (used : List String),
      ∀ nm ∈ matchNodesGo m std cust used,
        (∀ lm, nm.label_match = some lm →
            lm.similarity_result = m.engine lm.source_field lm.target_field ∧
            lm.technique_contributions =
              extractTechniqueContributions lm.similarity_result ∧
            specMatchClassification false lm) ∧
        (∀ pm ∈ nm.property_matches,
            pm.similarity_result = m.engine pm.source_field pm.target_field ∧
            pm.technique_contributions =
              extractTechniqueContributions pm.similarity_result ∧
            specMatchClassification true pm) ∧
        (∀ t, nm.target_node = some t →
            (m.engine nm.source_node.label t.label).score ≥ m.similarity_threshold) ∧
        (nm.target_node = none →
            nm.label_match = none ∧ nm.property_matches = [] ∧
            nm.missing_properties = [] ∧
            nm.extra_properties = nm.source_node.properties ∧
            nm.overall_confidence = 0) := by
  intro cust
  induction cust with
  | nil =>
      intro used nm hnm
      simp [matchNodesGo] at hnm
  | cons customerNode rest ih =>
      intro used nm hnm
      rw [matchNodesGo] at hnm
      cases hbest : (selectLoop Node.label m.engine m.similarity_threshold
          m.track_all_candidates customerNode.label std used).best with
      | none =>
          rw [hbest] at hnm
          simp only [List.mem_cons] at hnm
          rcases hnm with hnm | hnm
          · subst hnm
            refine ⟨?_, ?_, ?_, ?_⟩
            · intro lm hlm
              exact Option.noConfusion hlm
            · intro pm hpm
              exact absurd hpm (List.not_mem_nil pm)
            · intro t ht
              exact Option.noConfusion ht
            · intro _
              exact ⟨rfl, rfl, rfl, rfl, rfl⟩
          · exact ih used nm hnm
      | some t =>
          rw [hbest] at hnm
          simp only [List.mem_cons] at hnm
          rcases hnm with hnm | hnm
          · subst hnm
            obtain ⟨_, _, _, hunused, hscore, hthr, _, _⟩ :=
              selectLoop_best_some Node.label m.engine m.similarity_threshold
                m.track_all_candidates customerNode.label used std t hbest
            refine ⟨?_, ?_, ?_, ?_⟩
            · intro lm hlm
              have hl := Option.some.inj hlm
              subst hl
              exact ⟨rfl, rfl, specClass_of_entity _ rfl⟩
            · intro pm hpm
              exact matchPropertiesGo_invariants m t.properties
                customerNode.properties [] pm hpm
            · intro t' ht'
              have ht := Option.some.inj ht'
              subst ht
              exact hthr
            · intro hcontra
              exact (Option.some_ne_none t hcontra).elim
          · exact ih (t.label :: used) nm hnm

/-- The relationship-pass analogue of [matchNodesGo_invariants]. -/
lemma matchRelationshipsGo_invariants (m : FieldMatcher) (std : List Relationship) :
    ∀ (cust : List Relationship) (used : List String),
      ∀ rm ∈ matchRelationshipsGo m std cust used,
        (∀ tm, rm.type_match = some tm →
            tm.similarity_result = m.engine tm.source_field tm.target_field ∧
            tm.technique_contributions =
              extractTechniqueContributions tm.similarity_result ∧
            specMatchClassification false tm) ∧
        (∀ pm ∈ rm.property_matches,
            pm.similarity_result = m.engine pm.source_field pm.target_field ∧
            pm.technique_contributions =
              extractTechniqueContributions pm.similarity_result ∧
            specMatchClassification true pm) ∧
        (∀ t, rm.target_relationship = some t →
            (m.engine rm.source_relationship.type t.type).score ≥
              m.similarity_threshold) ∧
        (rm.target_relationship = none →
            rm.type_match = none ∧ rm.property_matches = [] ∧
            rm.missing_properties = [] ∧
            rm.extra_properties = rm.source_relationship.properties ∧
            rm.overall_confidence = 0) := by
  intro cust
  induction cust with
  | nil =>
      intro used rm hrm
      simp [matchRelationshipsGo] at hrm
  | cons customerRel rest ih =>
      intro used rm hrm
      rw [matchRelationshipsGo] at hrm
      cases hbest : (selectLoop Relationship.type m.engine m.similarity_threshold
          m.track_all_candidates customerRel.type std used).best with
      | none =>
          rw [hbest] at hrm
          simp only [List.mem_cons] at hrm
          rcases hrm with hrm | hrm
          · subst hrm
            refine ⟨?_, ?_, ?_, ?_⟩
            · intro tm htm
              exact Option.noConfusion htm
            · intro pm hpm
              exact absurd hpm (List.not_mem_nil pm)
            · intro t ht
              exact Option.noConfusion ht
            · intro _
              exact ⟨rfl, rfl, rfl, rfl, rfl⟩
          · exact ih used rm hrm
      | some t =>
          rw [hbest] at hrm
          simp only [List.mem_cons] at hrm
          rcases hrm with hrm | hrm
          · subst hrm
            obtain ⟨_, _, _, hunused, hscore, hthr, _, _⟩ :=
              selectLoop_best_some Relationship.type m.engine m.similarity_threshold
                m.track_all_candidates customerRel.type used std t hbest
            refine ⟨?_, ?_, ?_, ?_⟩
            · intro tm htm
              have hl := Option.some.inj htm
              subst hl
              exact ⟨rfl, rfl, specClass_of_entity _ rfl⟩
            · intro pm hpm
              exact matchPropertiesGo_invariants m t.properties
                customerRel.properties [] pm hpm
            · intro t' ht'
              have ht := Option.some.inj ht'
              subst ht
              exact hthr
            · intro hcontra
              exact (Option.some_ne_none t hcontra).elim
          · exact ih (t.type :: used) rm hrm

/-- Every `FieldMatch` of a whole comparison carries a fresh engine result on
its own source/target pair and contributions extracted from it. -/
lemma allFieldMatches_invariants (m : FieldMatcher) (cs ss : GraphSchema) :
    ∀ fm ∈ allFieldMatches (matchSchemas m cs ss),
      fm.similarity_result = m.engine fm.source_field fm.target_field ∧
      fm.technique_contributions = extractTechniqueContributions fm.similarity_result := by
  intro fm hfm
  unfold allFieldMatches at hfm
  rcases List.mem_append.mp hfm with hside | hside
  · obtain ⟨nm, hnm, hin⟩ := List.mem_flatMap.mp hside
    have hinv := matchNodesGo_invariants m ss.nodes cs.nodes [] nm hnm
    unfold nodeMatchFieldMatches at hin
    cases hl : nm.label_match with
    | none =>
        rw [hl] at hin
        simp only [List.nil_append] at hin
        exact ⟨(hinv.2.1 fm hin).1, (hinv.2.1 fm hin).2.1⟩
    | some lm =>
        rw [hl] at hin
        simp only [List.cons_append, List.nil_append, List.mem_cons] at hin
        rcases hin with rfl | hin
        · exact ⟨(hinv.1 fm hl).1, (hinv.1 fm hl).2.1⟩
        · exact ⟨(hinv.2.1 fm hin).1, (hinv.2.1 fm hin).2.1⟩
  · obtain ⟨rm, hrm, hin⟩ := List.mem_flatMap.mp hside
    have hinv := matchRelationshipsGo_invariants m ss.relationships cs.relationships [] rm hrm
    unfold relationshipMatchFieldMatches at hin
    cases hl : rm.type_match with
    | none =>
        rw [hl] at hin
        simp only [List.nil_append] at hin
        exact ⟨(hinv.2.1 fm hin).1, (hinv.2.1 fm hin).2.1⟩
    | some tm =>
        rw [hl] at hin
        simp only [List.cons_append, List.nil_append, List.mem_cons] at hin
        rcases hin with rfl | hin
        · exact ⟨(hinv.1 fm hl).1, (hinv.1 fm hl).2.1⟩
        · exact ⟨(hinv.2.1 fm hin).1, (hinv.2.1 fm hin).2.1⟩

/-! ## Metadata-key facts about the two engines -/

lemma extract_single (r : SimilarityResult)
    (h1 : r.metadata.find? (fun kv => kv.1 = "composite_scores") = none)
    (h2 : r.metadata.find? (fun kv => kv.1 = "technique_scores") = none) :
    extractTechniqueContributions r = [(r.technique, r.score)] := by
  unfold extractTechniqueContributions getKey
  rw [h1, h2]
  rfl

/-- The composite engine's result: exactly one extracted contribution (its own
technique name with the overall score), no `composite_scores` /
`technique_scores` metadata keys, and the per-technique breakdown stored under
`individual_results` for non-empty inputs. -/
lemma extract_composite (p : SimPrims) (w : Option (List (String × ℚ)))
    (a b : String) :
    extractTechniqueContributions (compositeCalculate p w a b) =
      [("composite", (compositeCalculate p w a b).score)] ∧
    (compositeCalculate p w a b).technique = "composite" ∧
    hasKey (compositeCalculate p w a b).metadata "composite_scores" = false ∧
    hasKey (compositeCalculate p w a b).metadata "technique_scores" = false ∧
    (a.isEmpty = false → b.isEmpty = false →
      hasKey (compositeCalculate p w a b).metadata "individual_results" = true) := by
  by_cases hh : a.isEmpty ∨ b.isEmpty
  · have he : compositeCalculate p w a b =
        { score := 0, confidence := 1, technique := "composite",
          metadata := [("reason", MetaVal.str "empty_string")] } := by
      unfold compositeCalculate
      rw [if_pos hh]
    rw [he]
    refine ⟨rfl, rfl, rfl, rfl, ?_⟩
    intro ha hb
    rcases hh with hh | hh
    · rw [ha] at hh
      exact absurd hh Bool.false_ne_true
    · rw [hb] at hh
      exact absurd hh Bool.false_ne_true
  · have he : compositeCalculate p w a b =
        compositeCombine (sixCalculators p) (w.getD defaultWeights) "composite" a b := by
      unfold compositeCalculate
      rw [if_neg hh]
    rw [he]
    exact ⟨extract_single _ rfl rfl, rfl, rfl, rfl, fun _ _ => rfl⟩

/-- The adaptive engine's result: the same shape, with the adaptive weight
vector appended to the metadata. -/
lemma extract_adaptive (p : SimPrims) (a b : String) :
    extractTechniqueContributions (adaptiveCalculate p a b) =
      [("adaptive", (adaptiveCalculate p a b).score)] ∧
    (adaptiveCalculate p a b).technique = "adaptive" ∧
    hasKey (adaptiveCalculate p a b).metadata "composite_scores" = false ∧
    hasKey (adaptiveCalculate p a b).metadata "technique_scores" = false ∧
    (a.isEmpty = false → b.isEmpty = false →
      hasKey (adaptiveCalculate p a b).metadata "individual_results" = true) := by
  by_cases hh : a.isEmpty ∨ b.isEmpty
  · have he : adaptiveCalculate p a b =
        { score := 0, confidence := 1, technique := "adaptive",
          metadata := [("reason", MetaVal.str "empty_string")] } := by
      unfold adaptiveCalculate
      rw [if_pos hh]
    rw [he]
    refine ⟨rfl, rfl, rfl, rfl, ?_⟩
    intro ha hb
    rcases hh with hh | hh
    · rw [ha] at hh
      exact absurd hh Bool.false_ne_true
    · rw [hb] at hh
      exact absurd hh Bool.false_ne_true
  · have hcomp : compositeCalculate p (some (computeAdaptiveWeights a b)) a b =
        compositeCombine (sixCalculators p) (computeAdaptiveWeights a b)
          "composite" a b := by
      unfold compositeCalculate
      rw [if_neg hh]
      rfl
    have he : adaptiveCalculate p a b =
        { compositeCombine (sixCalculators p) (computeAdaptiveWeights a b)
            "composite" a b with
          technique := "adaptive",
          metadata := (compositeCombine (sixCalculators p)
              (computeAdaptiveWeights a b) "composite" a b).metadata ++
            [("adaptive_weights", MetaVal.numMap (computeAdaptiveWeights a b))] } := by
      unfold adaptiveCalculate
      rw [if_neg hh]
      dsimp only
      rw [hcomp]
    rw [he]
    exact ⟨extract_single _ rfl rfl, rfl, rfl, rfl, fun _ _ => rfl⟩

/-! ## C10: shape of an unmatched element's record -/

/-- **C10**: a customer node (resp. relationship) for which no standard
candidate was selected yields a record with null target, null label/type match,
empty property matches, empty missing-properties list (even when the standard
side defines mandatory properties), all of the source's own properties as
extras, and overall confidence exactly `0.0`. -/
theorem c10_unmatched_record_shape (m : FieldMatcher)
    (customerNodes standardNodes : List Node)
    (customerRels standardRels : List Relationship) :
    (∀ nm ∈ matchNodes m customerNodes standardNodes, nm.target_node = none →
      nm.label_match = none ∧ nm.property_matches = [] ∧
      nm.missing_properties = [] ∧
      nm.extra_properties = nm.source_node.properties ∧
      nm.overall_confidence = 0) ∧
    (∀ rm ∈ matchRelationships m customerRels standardRels,
      rm.target_relationship = none →
      rm.type_match = none ∧ rm.property_matches = [] ∧
      rm.missing_properties = [] ∧
      rm.extra_properties = rm.source_relationship.properties ∧
      rm.overall_confidence = 0) := by
  constructor
  · intro nm hnm
    exact (matchNodesGo_invariants m standardNodes customerNodes [] nm hnm).2.2.2
  · intro rm hrm
    exact (matchRelationshipsGo_invariants m standardRels customerRels [] rm hrm).2.2.2

/-! ## C3: match-type classification -/

/-- **C3**: every label, type and property `FieldMatch` the matcher produces is
classified by the fixed boundary-inclusive cutoffs on its similarity score,
with the case-only downgrade on every path and the underscore-vs-camelCase
downgrade on the property path only (see [specMatchClassification]). -/
theorem c3_match_classification (m : FieldMatcher)
    (customerNodes standardNodes : List Node)
    (customerRels standardRels : List Relationship) :
    (∀ nm ∈ matchNodes m customerNodes standardNodes,
      (∀ lm, nm.label_match = some lm → specMatchClassification false lm) ∧
      (∀ pm ∈ nm.property_matches, specMatchClassification true pm)) ∧
    (∀ rm ∈ matchRelationships m customerRels standardRels,
      (∀ tm, rm.type_match = some tm → specMatchClassification false tm) ∧
      (∀ pm ∈ rm.property_matches, specMatchClassification true pm)) := by
  constructor
  · intro nm hnm
    have hinv := matchNodesGo_invariants m standardNodes customerNodes [] nm hnm
    exact ⟨fun lm hlm => (hinv.1 lm hlm).2.2,
           fun pm hpm => (hinv.2.1 pm hpm).2.2⟩
  · intro rm hrm
    have hinv := matchRelationshipsGo_invariants m standardRels customerRels [] rm hrm
    exact ⟨fun tm htm => (hinv.1 tm htm).2.2,
           fun pm hpm => (hinv.2.1 pm hpm).2.2⟩

/-! ## C9: technique contributions are a single engine-level entry -/

/-- **C9**: every `FieldMatch` of a whole comparison (with either engine)
carries exactly one technique contribution — the engine's own name mapped to
the overall score — because `_extract_technique_contributions` looks for the
`composite_scores` / `technique_scores` metadata keys while the composite
stores its per-technique breakdown under `individual_results` (present for
non-empty inputs). -/
theorem c9_single_technique_contribution (p : SimPrims) (useAdaptive : Bool)
    (threshold : ℚ) (customerSchema standardSchema : GraphSchema) :
    ∀ fm ∈ allFieldMatches
        (matchSchemas (mkFieldMatcher p useAdaptive threshold)
          customerSchema standardSchema),
      fm.technique_contributions =
        [((if useAdaptive then "adaptive" else "composite"),
          fm.similarity_result.score)] ∧
      fm.similarity_result.technique =
        (if useAdaptive then "adaptive" else "composite") ∧
      hasKey fm.similarity_result.metadata "composite_scores" = false ∧
      hasKey fm.similarity_result.metadata "technique_scores" = false ∧
      (fm.source_field.isEmpty = false → fm.target_field.isEmpty = false →
        hasKey fm.similarity_result.metadata "individual_results" = true) := by
  intro fm hfm
  obtain ⟨hsim, hcontrib⟩ :=
    allFieldMatches_invariants (mkFieldMatcher p useAdaptive threshold)
      customerSchema standardSchema fm hfm
  cases useAdaptive with
  | true =>
      have hengine : (mkFieldMatcher p true threshold).engine = adaptiveCalculate p := rfl
      rw [hengine] at hsim
      have hext := extract_adaptive p fm.source_field fm.target_field
      refine ⟨?_, ?_, ?_, ?_, ?_⟩
      · rw [hcontrib, hsim]
        exact hext.1
      · rw [hsim]
        exact hext.2.1
      · rw [hsim]
        exact hext.2.2.1
      · rw [hsim]
        exact hext.2.2.2.1
      · intro ha hb
        rw [hsim]
        exact hext.2.2.2.2 ha hb
  | false =>
      have hengine : (mkFieldMatcher p false threshold).engine =
          fun a b => compositeCalculate p none a b := rfl
      rw [hengine] at hsim
      have hext := extract_composite p none fm.source_field fm.target_field
      refine ⟨?_, ?_, ?_, ?_, ?_⟩
      · rw [hcontrib, hsim]
        exact hext.1
      · rw [hsim]
        exact hext.2.1
      · rw [hsim]
        exact hext.2.2.1
      · rw [hsim]
        exact hext.2.2.2.1
      · intro ha hb
        rw [hsim]
        exact hext.2.2.2.2 ha hb

/-! ## C1: the greedy 1:1 assignment -/

lemma filterMap_cons_some {α β : Type} (f : α → Option β) (a : α) (l : List α)
    (b : β) (h : f a = some b) :
    (a :: l).filterMap f = b :: l.filterMap f := by
  simp [List.filterMap_cons, h]

lemma filterMap_cons_none {α β : Type} (f : α → Option β) (a : α) (l : List α)
    (h : f a = none) :
    (a :: l).filterMap f = l.filterMap f := by
  simp [List.filterMap_cons, h]

/-- The chosen target labels of a node pass are distinct and all outside the
incoming used set. -/
lemma matchNodesGo_targets_nodup (m : FieldMatcher) (std : List Node) :
    ∀ (cust : List Node) (used : List String),
      ((matchNodesGo m std cust used).filterMap
          (fun nm => nm.target_node.map Node.label)).Nodup ∧
      (∀ l ∈ (matchNodesGo m std cust used).filterMap
          (fun nm => nm.target_node.map Node.label), used.contains l = false) := by
  intro cust
  induction cust with
  | nil =>
      intro used
      refine ⟨by simp [matchNodesGo], ?_⟩
      intro l hl
      simp [matchNodesGo] at hl
  | cons c rest ih =>
      intro used
      rw [matchNodesGo]
      cases hbest : (selectLoop Node.label m.engine m.similarity_threshold
          m.track_all_candidates c.label std used).best with
      | none =>
          dsimp only
          rw [filterMap_cons_none _ _ _ rfl]
          exact ih used
      | some t =>
          show (t.label :: (matchNodesGo m std rest (t.label :: used)).filterMap
              (fun nm => nm.target_node.map Node.label)).Nodup ∧
            ∀ l ∈ t.label :: (matchNodesGo m std rest (t.label :: used)).filterMap
              (fun nm => nm.target_node.map Node.label), used.contains l = false
          obtain ⟨htail_nodup, htail_unused⟩ := ih (t.label :: used)
          obtain ⟨_, _, _, hunused, _, _, _, _⟩ :=
            selectLoop_best_some Node.label m.engine m.similarity_threshold
              m.track_all_candidates c.label used std t hbest
          have hnotmem : t.label ∉ (matchNodesGo m std rest (t.label :: used)).filterMap
              (fun nm => nm.target_node.map Node.label) := by
            intro hmem
            have hc := htail_unused t.label hmem
            simp at hc
          refine ⟨List.nodup_cons.mpr ⟨hnotmem, htail_nodup⟩, ?_⟩
          intro l hl
          rcases List.mem_cons.mp hl with rfl | hl
          · exact hunused
          · have h2 : l ∉ t.label :: used := by simpa using htail_unused l hl
            have h3 : l ∉ used := fun hx => h2 (List.mem_cons_of_mem _ hx)
            simpa using h3

/-- The relationship-pass analogue of [matchNodesGo_targets_nodup]. -/
lemma matchRelationshipsGo_targets_nodup (m : FieldMatcher) (std : List Relationship) :
    ∀ (cust : List Relationship) (used : List String),
      ((matchRelationshipsGo m std cust used).filterMap
          (fun rm => rm.target_relationship.map Relationship.type)).Nodup ∧
      (∀ l ∈ (matchRelationshipsGo m std cust used).filterMap
          (fun rm => rm.target_relationship.map Relationship.type),
        used.contains l = false) := by
  intro cust
  induction cust with
  | nil =>
      intro used
      refine ⟨by simp [matchRelationshipsGo], ?_⟩
      intro l hl
      simp [matchRelationshipsGo] at hl
  | cons c rest ih =>
      intro used
      rw [matchRelationshipsGo]
      cases hbest : (selectLoop Relationship.type m.engine m.similarity_threshold
          m.track_all_candidates c.type std used).best with
      | none =>
          dsimp only
          rw [filterMap_cons_none _ _ _ rfl]
          exact ih used
      | some t =>
          show (t.type :: (matchRelationshipsGo m std rest (t.type :: used)).filterMap
              (fun rm => rm.target_relationship.map Relationship.type)).Nodup ∧
            ∀ l ∈ t.type :: (matchRelationshipsGo m std rest (t.type :: used)).filterMap
              (fun rm => rm.target_relationship.map Relationship.type),
                used.contains l = false
          obtain ⟨htail_nodup, htail_unused⟩ := ih (t.type :: used)
          obtain ⟨_, _, _, hunused, _, _, _, _⟩ :=
            selectLoop_best_some Relationship.type m.engine m.similarity_threshold
              m.track_all_candidates c.type used std t hbest
          have hnotmem : t.type ∉ (matchRelationshipsGo m std rest (t.type :: used)).filterMap
              (fun rm => rm.target_relationship.map Relationship.type) := by
            intro hmem
            have hc := htail_unused t.type hmem
            simp at hc
          refine ⟨List.nodup_cons.mpr ⟨hnotmem, htail_nodup⟩, ?_⟩
          intro l hl
          rcases List.mem_cons.mp hl with rfl | hl
          · exact hunused
          · have h2 : l ∉ t.type :: used := by simpa using htail_unused l hl
            have h3 : l ∉ used := fun hx => h2 (List.mem_cons_of_mem _ hx)
            simpa using h3

/-- The claimed targets of a property pass are distinct and outside the
incoming used set. -/
lemma matchPropertiesGo_targets_nodup (m : FieldMatcher)
    (stdProps : List PropertyDefinition) :
    ∀ (custProps : List PropertyDefinition) (used : List String),
      ((matchPropertiesGo m stdProps custProps used).1.map
          (fun pm => pm.target_field)).Nodup ∧
      (∀ l ∈ (matchPropertiesGo m stdProps custProps used).1.map
          (fun pm => pm.target_field), used.contains l = false) := by
  intro custProps
  induction custProps with
  | nil =>
      intro used
      refine ⟨by simp [matchPropertiesGo], ?_⟩
      intro l hl
      simp [matchPropertiesGo] at hl
  | cons cp rest ih =>
      intro used
      rw [matchPropertiesGo]
      cases hbest : (selectLoop PropertyDefinition.property m.engine
          m.similarity_threshold false cp.property stdProps used).best with
      | none =>
          dsimp only
          exact ih used
      | some t =>
          dsimp only
          simp only [List.map_cons]
          obtain ⟨htail_nodup, htail_unused⟩ := ih (t.property :: used)
          obtain ⟨_, _, _, hunused, _, _, _, _⟩ :=
            selectLoop_best_some PropertyDefinition.property m.engine
              m.similarity_threshold false cp.property used stdProps t hbest
          have hnotmem : t.property ∉
              (matchPropertiesGo m stdProps rest (t.property :: used)).1.map
                (fun pm => pm.target_field) := by
            intro hmem
            have hc := htail_unused t.property hmem
            simp at hc
          refine ⟨List.nodup_cons.mpr ⟨hnotmem, htail_nodup⟩, ?_⟩
          intro l hl
          rcases List.mem_cons.mp hl with rfl | hl
          · exact hunused
          · have h2 : l ∉ t.property :: used := by simpa using htail_unused l hl
            have h3 : l ∉ used := fun hx => h2 (List.mem_cons_of_mem _ hx)
            simpa using h3

lemma matchNodesGo_property_nodup (m : FieldMatcher) (std : List Node) :
    ∀ (cust : List Node) (used : List String),
      ∀ nm ∈ matchNodesGo m std cust used,
        (nm.property_matches.map (fun pm => pm.target_field)).Nodup := by
  intro cust
  induction cust with
  | nil =>
      intro used nm hnm
      simp [matchNodesGo] at hnm
  | cons c rest ih =>
      intro used nm hnm
      cases hbest : (selectLoop Node.label m.engine m.similarity_threshold
          m.track_all_candidates c.label std used).best with
      | none =>
          rw [matchNodesGo, hbest] at hnm
          simp only [List.mem_cons] at hnm
          rcases hnm with rfl | hnm
          · exact List.nodup_nil
          · exact ih used nm hnm
      | some t =>
          rw [matchNodesGo, hbest] at hnm
          simp only [List.mem_cons] at hnm
          rcases hnm with rfl | hnm
          · exact (matchPropertiesGo_targets_nodup m t.properties
              c.properties []).1
          · exact ih (t.label :: used) nm hnm

lemma matchRelationshipsGo_property_nodup (m : FieldMatcher) (std : List Relationship) :
    ∀ (cust : List Relationship) (used : List String),
      ∀ rm ∈ matchRelationshipsGo m std cust used,
        (rm.property_matches.map (fun pm => pm.target_field)).Nodup := by
  intro cust
  induction cust with
  | nil =>
      intro used rm hrm
      simp [matchRelationshipsGo] at hrm
  | cons c rest ih =>
      intro used rm hrm
      cases hbest : (selectLoop Relationship.type m.engine m.similarity_threshold
          m.track_all_candidates c.type std used).best with
      | none =>
          rw [matchRelationshipsGo, hbest] at hrm
          simp only [List.mem_cons] at hrm
          rcases hrm with rfl | hrm
          · exact List.nodup_nil
          · exact ih used rm hrm
      | some t =>
          rw [matchRelationshipsGo, hbest] at hrm
          simp only [List.mem_cons] at hrm
          rcases hrm with rfl | hrm
          · exact (matchPropertiesGo_targets_nodup m t.properties
              c.properties []).1
          · exact ih (t.type :: used) rm hrm

lemma filterMap_label_length (l : List NodeMatch) :
    (l.filterMap (fun nm => nm.target_node.map Node.label)).length =
      l.countP (fun nm => nm.target_node.isSome) := by
  induction l with
  | nil => rfl
  | cons nm rest ih =>
      cases h : nm.target_node with
      | none => simp [List.filterMap_cons, List.countP_cons, h, ih]
      | some t => simp [List.filterMap_cons, List.countP_cons, h, ih]

lemma filterMap_type_length (l : List RelationshipMatch) :
    (l.filterMap (fun rm => rm.target_relationship.map Relationship.type)).length =
      l.countP (fun rm => rm.target_relationship.isSome) := by
  induction l with
  | nil => rfl
  | cons rm rest ih =>
      cases h : rm.target_relationship with
      | none => simp [List.filterMap_cons, List.countP_cons, h, ih]
      | some t => simp [List.filterMap_cons, List.countP_cons, h, ih]

/-- **C1**: within every matching category the greedy matcher enforces a 1:1
assignment — no two distinct source elements receive the same non-null target
(label, type, or property name inside one matched pair), and the set of
distinct non-null targets has exactly as many members as there are non-null
matches. -/
theorem c1_greedy_one_to_one (m : FieldMatcher)
    (customerNodes standardNodes : List Node)
    (customerRels standardRels : List Relationship) :
    ((matchNodes m customerNodes standardNodes).filterMap
        (fun nm => nm.target_node.map Node.label)).Nodup ∧
    ((matchNodes m customerNodes standardNodes).filterMap
        (fun nm => nm.target_node.map Node.label)).dedup.length =
      (matchNodes m customerNodes standardNodes).countP
        (fun nm => nm.target_node.isSome) ∧
    ((matchRelationships m customerRels standardRels).filterMap
        (fun rm => rm.target_relationship.map Relationship.type)).Nodup ∧
    ((matchRelationships m customerRels standardRels).filterMap
        (fun rm => rm.target_relationship.map Relationship.type)).dedup.length =
      (matchRelationships m customerRels standardRels).countP
        (fun rm => rm.target_relationship.isSome) ∧
    (∀ nm ∈ matchNodes m customerNodes standardNodes,
      (nm.property_matches.map (fun pm => pm.target_field)).Nodup) ∧
    (∀ rm ∈ matchRelationships m customerRels standardRels,
      (rm.property_matches.map (fun pm => pm.target_field)).Nodup) := by
  have hn := matchNodesGo_targets_nodup m standardNodes customerNodes []
  have hr := matchRelationshipsGo_targets_nodup m standardRels customerRels []
  simp only [matchNodes, matchRelationships]
  refine ⟨hn.1, ?_, hr.1, ?_, ?_, ?_⟩
  · rw [List.Nodup.dedup hn.1]
    exact filterMap_label_length _
  · rw [List.Nodup.dedup hr.1]
    exact filterMap_type_length _
  · intro nm hnm
    exact matchNodesGo_property_nodup m standardNodes customerNodes [] nm hnm
  · intro rm hrm
    exact matchRelationshipsGo_property_nodup m standardRels customerRels [] rm hrm

/-! ## C2: first-best-above-threshold selection -/

/-- **C2**: for every source element, the assigned target is the
first-encountered unused target attaining the (strictly) highest similarity
score, assignments require the score to meet the threshold, and when no unused
target reaches the threshold the selection is null with every tracked
candidate score strictly below the threshold; at the record level every chosen
node/relationship target scored at least the threshold. -/
theorem c2_first_best_above_threshold {α : Type} (key : α → String)
    (engine : Engine) (threshold : ℚ) (track : Bool) (src : String)
    (targets : List α) (used : List String) (m : FieldMatcher)
    (customerNodes standardNodes : List Node)
    (customerRels standardRels : List Relationship) :
    (∀ t, (selectLoop key engine threshold track src targets used).best = some t →
      used.contains (key t) = false ∧
      (engine src (key t)).score ≥ threshold ∧
      (selectLoop key engine threshold track src targets used).bestScore =
        (engine src (key t)).score ∧
      (∃ pre post, targets = pre ++ t :: post ∧
        ∀ u ∈ pre, used.contains (key u) = false →
          (engine src (key u)).score < (engine src (key t)).score) ∧
      (∀ u ∈ targets, used.contains (key u) = false →
        (engine src (key u)).score ≤ (engine src (key t)).score)) ∧
    ((∀ u ∈ targets, used.contains (key u) = false →
        (engine src (key u)).score < threshold) →
      (selectLoop key engine threshold track src targets used).best = none ∧
      ∀ c ∈ (selectLoop key engine threshold track src targets used).cands,
        c.2 < threshold) ∧
    (∀ nm ∈ matchNodes m customerNodes standardNodes,
      ∀ t, nm.target_node = some t →
        (m.engine nm.source_node.label t.label).score ≥ m.similarity_threshold) ∧
    (∀ rm ∈ matchRelationships m customerRels standardRels,
      ∀ t, rm.target_relationship = some t →
        (m.engine rm.source_relationship.type t.type).score ≥
          m.similarity_threshold) := by
  refine ⟨?_, ?_, ?_, ?_⟩
  · intro t hbest
    obtain ⟨pre, post, hdec, hunused, hscore, hthr, _, hpre⟩ :=
      selectLoop_best_some key engine threshold track src used targets t hbest
    refine ⟨hunused, hthr, hscore, ⟨pre, post, hdec, hpre⟩, ?_⟩
    intro u hu huu
    rcases selFold_score_bound key engine threshold track src used targets
        ⟨none, 0, []⟩ u hu huu with hle | hlt
    · exact le_trans hle (le_of_eq hscore)
    · exact le_of_lt (lt_of_lt_of_le hlt hthr)
  · intro hall
    have hnone := selFold_no_candidate key engine threshold track src used targets
      ⟨none, 0, []⟩ hall
    refine ⟨hnone.1, ?_⟩
    intro c hc
    have hcands := selFold_cands key engine threshold track src used targets
      (⟨none, 0, []⟩ : SelState α)
    have hc2 : c ∈ (targets.foldl (selStep key engine threshold track src used)
        (⟨none, 0, []⟩ : SelState α)).cands := hc
    rw [hcands] at hc2
    simp only [List.nil_append] at hc2
    by_cases htr : track = true
    · rw [if_pos htr] at hc2
      obtain ⟨u, hu, rfl⟩ := List.mem_map.mp hc2
      have hu2 := List.mem_filter.mp hu
      exact hall u hu2.1 (by simpa using hu2.2)
    · rw [if_neg htr] at hc2
      exact absurd hc2 (List.not_mem_nil c)
  · intro nm hnm
    exact (matchNodesGo_invariants m standardNodes customerNodes [] nm hnm).2.2.1
  · intro rm hrm
    exact (matchRelationshipsGo_invariants m standardRels customerRels [] rm hrm).2.2.1

/-! ## C8: the adaptive weight vector and its negative semantic weight -/

/-- **C8** (corrected): for non-empty inputs satisfying the
short-or-abbreviation guard, the adaptive weight vector assigns `semantic` the
strictly negative weight `-0.05` (the renormalization divides by the unchanged
total `1`), the weights sum to `1` but are not all non-negative, and — keeping
the five other technique results and the `≥ 0.8` consistency count fixed, with
the larger-semantic score still below the `min 1` cap — a strictly larger
semantic score yields a strictly smaller adaptive score.  Without the two
side conditions the monotonicity is false, see the counterexample. -/
theorem c8_adaptive_negative_semantic_weight (p1 p2 : SimPrims) (a b : String)
    (ha : a.isEmpty = false) (hb : b.isEmpty = false)
    (hguard : (((analyzeStringCharacteristics a).length : ℚ) +
          ((analyzeStringCharacteristics b).length : ℚ)) / 2 ≤ 8 ∨
        (analyzeStringCharacteristics a).isAbbreviationLike = true ∨
        (analyzeStringCharacteristics b).isAbbreviationLike = true)
    (hlev : (levenshteinCalculate p2 a b).score =
      (levenshteinCalculate p1 a b).score)
    (hjw : (jaroWinklerCalculate p2 a b).score =
      (jaroWinklerCalculate p1 a b).score)
    (hfz : (fuzzyCalculate p2 a b).score = (fuzzyCalculate p1 a b).score)
    (habb : (abbreviationCalculate p2 a b).score =
      (abbreviationCalculate p1 a b).score)
    (hsem : (semanticCalculate p1 a b).score < (semanticCalculate p2 a b).score)
    (hcount : (sixResults p2 a b).countP (fun nr => nr.2.score ≥ 8/10) =
      (sixResults p1 a b).countP (fun nr => nr.2.score ≥ 8/10))
    (hcap : (adaptiveCalculate p2 a b).score < 1) :
    weightOf (computeAdaptiveWeights a b) "semantic" = -(1/20) ∧
    ((computeAdaptiveWeights a b).map (fun kv => kv.2)).sum = 1 ∧
    (∃ kv ∈ computeAdaptiveWeights a b, kv.2 < 0) ∧
    (adaptiveCalculate p2 a b).score < (adaptiveCalculate p1 a b).score := by
  have hne : ¬ (a.isEmpty ∨ b.isEmpty) := by
    rintro (hh | hh)
    · rw [ha] at hh
      exact Bool.false_ne_true hh
    · rw [hb] at hh
      exact Bool.false_ne_true hh
  have haw : computeAdaptiveWeights a b = awAbbrev ∨
      computeAdaptiveWeights a b = awAbbrevCamel := by
    by_cases hcam : (analyzeStringCharacteristics a).hasCamelcase = true ∧
        (analyzeStringCharacteristics b).hasCamelcase = true
    · right
      unfold computeAdaptiveWeights
      dsimp only
      rw [if_pos hguard, if_pos hcam]
      decide
    · left
      unfold computeAdaptiveWeights
      dsimp only
      rw [if_pos hguard, if_neg hcam]
      decide
  have hwsem : weightOf (computeAdaptiveWeights a b) "semantic" = -(1/20) := by
    rcases haw with h | h
    · rw [h]
      decide
    · rw [h]
      decide
  have hwsum : ((computeAdaptiveWeights a b).map (fun kv => kv.2)).sum = 1 := by
    rcases haw with h | h
    · rw [h]
      decide
    · rw [h]
      decide
  have hneg : ∃ kv ∈ computeAdaptiveWeights a b, kv.2 < 0 := by
    rcases haw with h | h
    · exact ⟨("semantic", -(1/20)), by rw [h]; decide, by decide⟩
    · exact ⟨("semantic", -(1/20)), by rw [h]; decide, by decide⟩
  have hadapt : ∀ p : SimPrims, (adaptiveCalculate p a b).score =
      (compositeCalculate p (some (computeAdaptiveWeights a b)) a b).score := by
    intro p
    unfold adaptiveCalculate
    rw [if_neg hne]
  have hscoreFormula : ∀ p : SimPrims,
      (compositeCalculate p (some (computeAdaptiveWeights a b)) a b).score =
      min 1 (((sixResults p a b).map
          (fun nr => nr.2.score * weightOf (computeAdaptiveWeights a b) nr.1)).sum +
        min (15/100)
          ((((sixResults p a b).countP (fun nr => nr.2.score ≥ 8/10)) : ℚ) *
            (5/100))) := by
    intro p
    have hcomp : compositeCalculate p (some (computeAdaptiveWeights a b)) a b =
        compositeCombine (sixCalculators p) (computeAdaptiveWeights a b)
          "composite" a b := by
      unfold compositeCalculate
      rw [if_neg hne]
      rfl
    rw [hcomp, compositeCombine_score _ _ _ _ _ (sixCalculators_names_nodup p)]
    rfl
  have hmono : (adaptiveCalculate p2 a b).score <
      (adaptiveCalculate p1 a b).score := by
    rw [hadapt p2, hscoreFormula p2, hcount] at hcap
    rw [hadapt p1, hadapt p2, hscoreFormula p1, hscoreFormula p2, hcount]
    simp only [sixResults, List.map_cons, List.map_nil, List.sum_cons,
      List.sum_nil] at hcap ⊢
    rw [hlev, hjw, hfz, habb, hwsem] at hcap ⊢
    refine lt_of_le_of_lt (min_le_right _ _) (lt_min ?_ ?_)
    · rcases min_lt_iff.mp hcap with h | h
      · exact absurd h (lt_irrefl _)
      · exact h
    · linarith
  exact ⟨hwsem, hwsum, hneg, hmono⟩

/-- Counterexample showing why C8's monotonicity needs its side conditions:
on the guard-satisfying pair `"AB"`,`"AB"` a semantic score rising from `0.7`
to `0.9` crosses the `0.8` consistency threshold, and the larger bonus
overwhelms the negative weight: the adaptive score strictly increases. -/
theorem c8_counterexample :
    ((((analyzeStringCharacteristics "AB").length : ℚ) +
        ((analyzeStringCharacteristics "AB").length : ℚ)) / 2 ≤ 8 ∨
      (analyzeStringCharacteristics "AB").isAbbreviationLike = true ∨
      (analyzeStringCharacteristics "AB").isAbbreviationLike = true) ∧
    (semanticCalculate (cosPrims (7/10)) "AB" "AB").score <
      (semanticCalculate (cosPrims (9/10)) "AB" "AB").score ∧
    (adaptiveCalculate (cosPrims (7/10)) "AB" "AB").score <
      (adaptiveCalculate (cosPrims (9/10)) "AB" "AB").score := by
  refine ⟨by decide, by decide, by decide⟩

/-! ## Closed witnesses -/

/-- Witness for C1 at the concrete witness schemas. -/
theorem c1_greedy_one_to_one_witness :
    ((matchNodes witnessMatcher [custAcctNode, custCustomerNode]
        [stdAcctNode, stdCustomerNode]).filterMap
      (fun nm => nm.target_node.map Node.label)).dedup.length =
    (matchNodes witnessMatcher [custAcctNode, custCustomerNode]
        [stdAcctNode, stdCustomerNode]).countP
      (fun nm => nm.target_node.isSome) :=
  (c1_greedy_one_to_one witnessMatcher [custAcctNode, custCustomerNode]
    [stdAcctNode, stdCustomerNode] [] []).2.1

/-- Witness for C2: the first standard node is selected for the customer
`Account` node, unused and above the threshold. -/
theorem c2_first_best_above_threshold_witness :
    ([] : List String).contains stdAcctNode.label = false ∧
    (witnessMatcher.engine custAcctNode.label stdAcctNode.label).score ≥
      witnessMatcher.similarity_threshold := by
  have h := (c2_first_best_above_threshold Node.label witnessMatcher.engine
      witnessMatcher.similarity_threshold witnessMatcher.track_all_candidates
      custAcctNode.label [stdAcctNode, stdCustomerNode] [] witnessMatcher
      [] [] [] []).1 stdAcctNode (by rfl)
  exact ⟨h.1, h.2.1⟩

/-- Witness for C3: the label match of the concrete node match satisfies the
spec classification rule. -/
theorem c3_match_classification_witness :
    specMatchClassification false
      (((matchNodes witnessMatcher [custAcctNode] [stdAcctNode]).get
          ⟨0, by decide⟩).label_match.get (by decide)) := by
  have hmem := List.get_mem
    (matchNodes witnessMatcher [custAcctNode] [stdAcctNode]) 0 (by decide)
  have h := ((c3_match_classification witnessMatcher [custAcctNode]
      [stdAcctNode] [] []).1 _ hmem).1
  exact h _ (Option.some_get (by decide)).symm

/-- Witness for C9: the first field match of the concrete schema comparison
carries exactly the single `adaptive` contribution. -/
theorem c9_single_technique_contribution_witness :
    ((allFieldMatches (matchSchemas (mkFieldMatcher jwOnePrims true (7/10))
        witnessCustomerSchema witnessStandardSchema)).get
          ⟨0, by decide⟩).technique_contributions =
      [("adaptive",
        ((allFieldMatches (matchSchemas (mkFieldMatcher jwOnePrims true (7/10))
          witnessCustomerSchema witnessStandardSchema)).get
            ⟨0, by decide⟩).similarity_result.score)] := by
  have hmem := List.get_mem
    (allFieldMatches (matchSchemas (mkFieldMatcher jwOnePrims true (7/10))
      witnessCustomerSchema witnessStandardSchema)) 0 (by decide)
  exact (c9_single_technique_contribution jwOnePrims true (7/10)
    witnessCustomerSchema witnessStandardSchema _ hmem).1

/-- Witness for C10: the unrelated customer node stays unmatched, all its
properties are extra, the confidence is `0`, even though the standard node
defines a mandatory property. -/
theorem c10_unmatched_record_shape_witness :
    (((matchNodes (mkFieldMatcher constPrims true (7/10)) [zzzNode]
        [stdAcctNode]).get ⟨0, by decide⟩).extra_properties =
      ((matchNodes (mkFieldMatcher constPrims true (7/10)) [zzzNode]
        [stdAcctNode]).get ⟨0, by decide⟩).source_node.properties) ∧
    ((matchNodes (mkFieldMatcher constPrims true (7/10)) [zzzNode]
        [stdAcctNode]).get ⟨0, by decide⟩).overall_confidence = 0 ∧
    stdAcctNode.properties.any (fun p => p.mandatory) = true := by
  have hmem := List.get_mem
    (matchNodes (mkFieldMatcher constPrims true (7/10)) [zzzNode] [stdAcctNode])
    0 (by decide)
  have h := (c10_unmatched_record_shape (mkFieldMatcher constPrims true (7/10))
      [zzzNode] [stdAcctNode] [] []).1 _ hmem (by rfl)
  exact ⟨h.2.2.2.1, h.2.2.2.2, by decide⟩

/-- Witness for C8: with cosine backends `0.6` and `0.7` on the abbreviation
pair, the semantic weight is `-0.05` and the larger semantic score strictly
lowers the adaptive score. -/
theorem c8_adaptive_negative_semantic_weight_witness :
    weightOf (computeAdaptiveWeights "AB" "AB") "semantic" = -(1/20) ∧
    (adaptiveCalculate (cosPrims (7/10)) "AB" "AB").score <
      (adaptiveCalculate (cosPrims (6/10)) "AB" "AB").score := by
  have h := c8_adaptive_negative_semantic_weight (cosPrims (6/10))
    (cosPrims (7/10)) "AB" "AB" rfl rfl (by decide) (by decide) (by decide)
    (by decide) (by decide) (by decide) (by decide) (by decide)
  exact ⟨h.1, h.2.2.2⟩

end CompareModels
